import Mathlib

/-! Order management system: payment service and order service.

A shallow embedding of the two Go services of the repository:

* `paymentservice/handlers/payments.go`: `ProcessPayment`, `getMpesaToken`, `PaymentCallback`;
* `orderservice/main.go`, `handlers/orders.go`, `repository/postgres.go`: the route table,
  `UpdateOrderStatus`, `GetOrder`.

Handlers are pure functions. What a handler reads from outside (environment variables, the
clock, the answers of the network) is a parameter; what it does to the outside (the calls it
makes on the HTTP client) is returned as a list next to the HTTP response it writes.
-/

namespace OrderManagement

/-! ## JSON values and the decoding rules of `encoding/json` -/

/-- A JSON value as the scanner of `encoding/json` sees it. A number keeps its literal text,
because the decoder converts it with `strconv` according to the Go type it is stored in. -/
inductive Json where
  | null
  | bool (b : Bool)
  | num (lit : String)
  | str (s : String)
  | arr (items : List Json)
  | obj (fields : List (String × Json))

/-- Value of a decimal digit. -/
def digitVal (c : Char) : Option Nat :=
  if 48 ≤ c.toNat ∧ c.toNat ≤ 57 then some (c.toNat - 48) else none

/-- Value of a non-empty run of decimal digits, `none` for anything else. -/
def parseDigits (cs : List Char) : Option Nat :=
  match cs with
  | [] => none
  | _ => cs.foldlM (fun acc c => (digitVal c).map (fun d => acc * 10 + d)) 0

/-- `strconv.ParseUint(s, 10, 64)`, with `none` for a syntax or range error. -/
def ParseUint (s : String) : Option Nat :=
  match parseDigits s.data with
  | some n => if n < 2 ^ 64 then some n else none
  | none => none

/-- `strconv.ParseInt(s, 10, 64)`, with `none` for a syntax or range error. -/
def ParseInt (s : String) : Option Int :=
  match s.data with
  | '-' :: ds =>
    match parseDigits ds with
    | some n => if n ≤ 2 ^ 63 then some (-(n : Int)) else none
    | none => none
  | '+' :: ds =>
    match parseDigits ds with
    | some n => if n < 2 ^ 63 then some (n : Int) else none
    | none => none
  | ds =>
    match parseDigits ds with
    | some n => if n < 2 ^ 63 then some (n : Int) else none
    | none => none

/-- `strconv.Atoi`: the value and whether the conversion succeeded. A syntax error gives 0, a
range error gives the nearest `int64`. -/
def Atoi (s : String) : Int × Bool :=
  match s.data with
  | '-' :: ds =>
    match parseDigits ds with
    | some n => if n ≤ 2 ^ 63 then (-(n : Int), true) else (-(2 ^ 63 : Int), false)
    | none => (0, false)
  | '+' :: ds =>
    match parseDigits ds with
    | some n => if n < 2 ^ 63 then ((n : Int), true) else ((2 ^ 63 - 1 : Int), false)
    | none => (0, false)
  | ds =>
    match parseDigits ds with
    | some n => if n < 2 ^ 63 then ((n : Int), true) else ((2 ^ 63 - 1 : Int), false)
    | none => (0, false)

/-- The conversion `uint(id)` of an `int` on a 64-bit platform. -/
def toUint (i : Int) : Nat := (i % (2 ^ 64 : Int)).toNat

/-- The rune `encoding/json` folds a rune to when it compares an object key with a field name:
ASCII letters go to upper case, and the two non-ASCII runes whose fold orbit holds an ASCII
letter (U+017F long s, U+212A Kelvin sign) go to that letter. Any other rune stays outside
ASCII, so it never equals a rune of the ASCII field names used here. -/
def foldRune (c : Char) : Char :=
  if c.toNat = 0x17F then 'S'
  else if c.toNat = 0x212A then 'K'
  else c.toUpper

/-- Folded form of a key (`foldName` of `encoding/json`). -/
def foldName (s : String) : String := ⟨s.data.map foldRune⟩

/-- Whether an object key selects the struct field with JSON name `name`: an exact match, or
else a match of the folded names. -/
def matchesField (key name : String) : Bool :=
  key == name || foldName key == foldName name

/-- Decoding a JSON value into a Go `string` that currently holds `cur`. -/
def decodeString (cur : String) : Json → Option String
  | .null => some cur
  | .str s => some s
  | _ => none

/-- Decoding a JSON value into a Go `int` that currently holds `cur`. -/
def decodeInt (cur : Int) : Json → Option Int
  | .null => some cur
  | .num lit => ParseInt lit
  | _ => none

/-- Decoding a JSON value into a Go `uint` that currently holds `cur`. -/
def decodeUint (cur : Nat) : Json → Option Nat
  | .null => some cur
  | .num lit => ParseUint lit
  | _ => none

/-! ## Numbers stored in `interface{}`: `strconv.ParseFloat` and the float encoder -/

/-- A decimal number `± mant * 10 ^ exp`, the value of a JSON number literal. -/
structure Decimal where
  neg : Bool
  mant : Nat
  exp : Int

/-- The leading decimal digits of a list of characters, and the rest. -/
def takeDigits : List Char → List Char × List Char
  | [] => ([], [])
  | c :: cs =>
    if 48 ≤ c.toNat ∧ c.toNat ≤ 57 then ((c :: (takeDigits cs).1), (takeDigits cs).2)
    else ([], c :: cs)

/-- The number a list of decimal digits writes. -/
def digitsToNat (ds : List Char) : Nat := ds.foldl (fun acc c => acc * 10 + (c.toNat - 48)) 0

/-- The exponent part of a number literal (`e` or `E`, an optional sign, digits), `none` when
it is not well formed. No exponent part gives 0. -/
def parseExponent : List Char → Option Int
  | [] => some 0
  | c :: cs =>
    if c = 'e' ∨ c = 'E' then
      match cs with
      | '-' :: ds =>
        if (takeDigits ds).1 ≠ [] ∧ (takeDigits ds).2 = [] then some (-(digitsToNat ds : Int))
        else none
      | '+' :: ds =>
        if (takeDigits ds).1 ≠ [] ∧ (takeDigits ds).2 = [] then some (digitsToNat ds : Int)
        else none
      | ds =>
        if (takeDigits ds).1 ≠ [] ∧ (takeDigits ds).2 = [] then some (digitsToNat ds : Int)
        else none
    else none

/-- The fraction digits of a number literal and what follows them; no fraction part gives no
digits. `none` when a point is followed by no digit. -/
def parseFraction : List Char → Option (List Char × List Char)
  | '.' :: cs => if (takeDigits cs).1 = [] then none else some (takeDigits cs)
  | cs => some ([], cs)

/-- The value of a JSON number literal: an optional minus sign, digits, an optional fraction,
an optional exponent. `none` for any other text. -/
def parseNumber (lit : String) : Option Decimal :=
  let neg := lit.data.head? == some '-'
  let body := if neg then lit.data.tail else lit.data
  let ip := (takeDigits body).1
  if ip = [] then none
  else
    match parseFraction (takeDigits body).2 with
    | none => none
    | some (fp, rest) =>
      match parseExponent rest with
      | none => none
      | some e => some ⟨neg, digitsToNat (ip ++ fp), e - fp.length⟩

/-- The power `10 ^ e` for `e ≥ 0`, and 1 otherwise. -/
def pow10 (e : Int) : Nat := 10 ^ e.toNat

/-- The power `2 ^ e` for `e ≥ 0`, and 1 otherwise. -/
def pow2 (e : Int) : Nat := 2 ^ e.toNat

/-- The smallest magnitude that `strconv.ParseFloat` reports as out of range for 64 bits:
half way between the largest `float64` and `2 ^ 1024`. -/
def float64Limit : Nat := 2 ^ 1024 - 2 ^ 970

/-- Whether the magnitude of a decimal is out of the range of `float64`. A number with
exponent above 400 is, without computing the power. -/
def Decimal.overflows (d : Decimal) : Bool :=
  if d.mant = 0 then false
  else if d.exp > 400 then true
  else decide (d.mant * pow10 d.exp ≥ float64Limit * pow10 (-d.exp))

/-- Number of times `n` can be halved before it is below 2, with fuel. -/
def log2Aux : Nat → Nat → Nat
  | 0, _ => 0
  | fuel + 1, n => if n < 2 then 0 else log2Aux fuel (n / 2) + 1

/-- The floor of the binary logarithm of `n ≥ 1`. -/
def log2 (n : Nat) : Nat := log2Aux n n

/-- Number of times `n` can be divided by 10 before it is below 10, with fuel. -/
def log10Aux : Nat → Nat → Nat
  | 0, _ => 0
  | fuel + 1, n => if n < 10 then 0 else log10Aux fuel (n / 10) + 1

/-- The floor of the decimal logarithm of `n ≥ 1`. -/
def log10 (n : Nat) : Nat := log10Aux n n

/-- The floor of the binary logarithm of the fraction `a / b`, for `a, b ≥ 1`. -/
def floorLog2 (a b : Nat) : Int :=
  let g : Int := (log2 a : Int) - (log2 b : Int)
  if b * pow2 g ≤ a * pow2 (-g) then g else g - 1

/-- The floor of the decimal logarithm of the fraction `a / b`, for `a, b ≥ 1`. -/
def floorLog10 (a b : Nat) : Int :=
  let g : Int := (log10 a : Int) - (log10 b : Int)
  if b * pow10 g ≤ a * pow10 (-g) then g else g - 1

/-- The integer nearest to the fraction `a / b`, the even one of two that are equally
near. -/
def roundHalfEven (a b : Nat) : Nat :=
  let k := a / b
  let r := a % b
  if 2 * r < b then k
  else if b < 2 * r then k + 1
  else if k % 2 = 0 then k else k + 1

/-- A finite `float64`: `± mant * 2 ^ exp` with `mant < 2 ^ 53` and `exp ≥ -1074`. -/
structure Float64 where
  neg : Bool
  mant : Nat
  exp : Int

/-- The `float64` nearest to a decimal in range (`strconv.ParseFloat`): 53 bits of mantissa
for a normal number, fewer at the exponent -1074 of the subnormal ones. A decimal nearer to
0 than `10 ^ -400` gives 0 without computing the power. -/
def Decimal.toFloat64 (d : Decimal) : Float64 :=
  if d.mant = 0 then ⟨d.neg, 0, 0⟩
  else if d.exp + (log10 d.mant : Int) < -400 then ⟨d.neg, 0, 0⟩
  else
    let a := d.mant * pow10 d.exp
    let b := pow10 (-d.exp)
    let q : Int := max (floorLog2 a b - 52) (-1074)
    let k := roundHalfEven (a * pow2 (-q)) (b * pow2 q)
    if k = 0 then ⟨d.neg, 0, 0⟩
    else if k = 2 ^ 53 then ⟨d.neg, 2 ^ 52, q + 1⟩
    else ⟨d.neg, k, q⟩

/-- The comparison `|x| < |y|` of two `float64`. -/
def Float64.absLt (x y : Float64) : Bool :=
  decide (x.mant * pow2 x.exp * pow2 (-y.exp) < y.mant * pow2 y.exp * pow2 (-x.exp))

/-- The candidate with `n + 1` significant digits for the shortest decimal that reads back
as the `float64` `mant * 2 ^ exp`: the nearest decimal with that many digits, when it lies
within half a step of the `float64` (the bound itself counts when the mantissa is even), as
its digits and decimal exponent. -/
def shortestAt (mant : Nat) (exp : Int) (p : Int) (n : Nat) : Option (Nat × Int) :=
  let x : Int := p - n
  -- everything in units of `2 ^ (exp - 2)`: the float is `4 * mant`
  let lower := if mant = 2 ^ 52 ∧ exp > -1074 then 4 * mant - 1 else 4 * mant - 2
  let upper := 4 * mant + 2
  let wn := pow2 (exp - 2)
  let wd := pow2 (2 - exp)
  let xn := pow10 x
  let xd := pow10 (-x)
  let inside (c : Nat) : Bool :=
    if mant % 2 = 0 then
      decide (lower * wn * xd ≤ c * xn * wd ∧ c * xn * wd ≤ upper * wn * xd)
    else
      decide (lower * wn * xd < c * xn * wd ∧ c * xn * wd < upper * wn * xd)
  let a := 4 * mant * wn * xd
  let b := wd * xn
  let lo := a / b
  let okLo := inside lo
  let okHi := inside (lo + 1)
  if okLo ∧ okHi then some (roundHalfEven a b, x)
  else if okLo then some (lo, x)
  else if okHi then some (lo + 1, x)
  else none

/-- Removing the trailing zeros of a number of digits, with fuel: the digits left and the
number of zeros removed. -/
def stripZeros : Nat → Nat → Nat × Nat
  | 0, c => (c, 0)
  | fuel + 1, c =>
    if c ≠ 0 ∧ c % 10 = 0 then ((stripZeros fuel (c / 10)).1, (stripZeros fuel (c / 10)).2 + 1)
    else (c, 0)

/-- The shortest decimal that reads back as the `float64` `mant * 2 ^ exp` (`mant ≥ 1`), as
its digits, without trailing zero, and the position of the decimal point after them counted
from the first digit (`dp` of `strconv`): the value is `0.digits * 10 ^ dp`. Seventeen
digits always suffice. -/
def shortestDecimal (mant : Nat) (exp : Int) : List Char × Int :=
  let p := floorLog10 (mant * pow2 exp) (pow2 (-exp))
  match (List.range 17).findSome? (shortestAt mant exp p) with
  | none => ([], 0)
  | some (c, x) =>
    let s := stripZeros 20 c
    let ds := (Nat.repr s.1).data
    (ds, (ds.length : Int) + x + s.2)

/-- The exponent of the format `e`: a sign and at least two digits. -/
def formatExponent (e : Int) : List Char :=
  let sign := if e < 0 then '-' else '+'
  let ds := (Nat.repr e.natAbs).data
  sign :: (if ds.length < 2 then '0' :: ds else ds)

/-- `strconv.AppendFloat(b, f, 'e', -1, 64)` for the digits and decimal point of a number
that is not 0. -/
def formatE (ds : List Char) (dp : Int) : List Char :=
  match ds with
  | [] => []
  | d :: rest =>
    (d :: (if rest = [] then [] else '.' :: rest)) ++ 'e' :: formatExponent (dp - 1)

/-- `strconv.AppendFloat(b, f, 'f', -1, 64)` for the digits and decimal point of a number
that is not 0. -/
def formatF (ds : List Char) (dp : Int) : List Char :=
  let intPart :=
    if dp > 0 then ds.take dp.toNat ++ List.replicate (dp.toNat - ds.length) '0' else ['0']
  let fracPart :=
    if dp ≥ ds.length then []
    else '.' :: (List.replicate (-dp).toNat '0' ++ ds.drop dp.toNat)
  intPart ++ fracPart

/-- The clean-up of the float encoder of `encoding/json`: `e-09` becomes `e-9`. -/
def cleanExponent (cs : List Char) : List Char :=
  match cs.reverse with
  | d :: '0' :: s :: 'e' :: rest =>
    if s = '-' ∨ s = '+' then (d :: s :: 'e' :: rest).reverse else cs
  | _ => cs

/-- The float encoder of `encoding/json` for a finite `float64`: format `e` below `1e-6` and
from `1e21` on, format `f` otherwise, both with the shortest digits that read back. -/
def Float64.encode (f : Float64) : String :=
  let sign := if f.neg then ['-'] else []
  if f.mant = 0 then ⟨sign ++ ['0']⟩
  else
    let sd := shortestDecimal f.mant f.exp
    let small := (⟨false, 1, -6⟩ : Decimal).toFloat64
    let large := (⟨false, 1, 21⟩ : Decimal).toFloat64
    if f.absLt small ∨ ¬ f.absLt large then ⟨sign ++ cleanExponent (formatE sd.1 sd.2)⟩
    else ⟨sign ++ formatF sd.1 sd.2⟩

/-- What a JSON number stored in an `interface{}` is written back as by `json.Marshal`: the
literal goes through `strconv.ParseFloat(s, 64)` and the float encoder. `none` when
`ParseFloat` reports a range error. -/
def convertNumber (lit : String) : Option String :=
  match parseNumber lit with
  | none => none
  | some d => if d.overflows then none else some d.toFloat64.encode

/-! ## Values stored in `interface{}` -/

/-- Storing a value under a key in a Go map, kept in the order in which `json.Marshal` writes
a map (sorted by key): the value of a key that is there already is replaced. -/
def mapInsert (m : List (String × Json)) (key : String) (v : Json) : List (String × Json) :=
  match m with
  | [] => [(key, v)]
  | (k, w) :: rest =>
    if key = k then (k, v) :: rest
    else if key < k then (key, v) :: (k, w) :: rest
    else (k, w) :: mapInsert rest key v

/-- The index expression `m[key]` on a Go map: the value, `none` when the key is absent. -/
def mapLookup (m : List (String × Json)) (key : String) : Option Json :=
  (m.find? (fun kv => kv.1 == key)).map (fun kv => kv.2)

mutual
/-- A JSON value decoded into an `interface{}` and written back by `json.Marshal`: a number
goes through `float64` (a number out of range leaves the nil interface), an object becomes a
`map[string]interface{}`, in which a repeated key keeps its last value and which is written
with its keys sorted. -/
def interfaceValue : Json → Json
  | .null => .null
  | .bool b => .bool b
  | .num lit =>
    match convertNumber lit with
    | some s => .num s
    | none => .null
  | .str s => .str s
  | .arr items => .arr (interfaceList items)
  | .obj fields => .obj (interfaceMap fields [])
/-- The elements of an array decoded into `[]interface{}`. -/
def interfaceList : List Json → List Json
  | [] => []
  | j :: js => interfaceValue j :: interfaceList js
/-- The members of an object stored one after the other into the map `acc`. -/
def interfaceMap : List (String × Json) → List (String × Json) → List (String × Json)
  | [], acc => acc
  | (k, j) :: rest, acc => interfaceMap rest (mapInsert acc k (interfaceValue j))
end

mutual
/-- Whether decoding a JSON value into an `interface{}` saves no error: every number in it,
at any depth, is in the range of `float64`. -/
def interfaceOk : Json → Bool
  | .num lit => (convertNumber lit).isSome
  | .arr items => interfaceOkList items
  | .obj fields => interfaceOkFields fields
  | _ => true
/-- Whether every element of an array decodes into an `interface{}` without error. -/
def interfaceOkList : List Json → Bool
  | [] => true
  | j :: js => interfaceOk j && interfaceOkList js
/-- Whether every member of an object decodes into an `interface{}` without error. -/
def interfaceOkFields : List (String × Json) → Bool
  | [] => true
  | (_, j) :: rest => interfaceOk j && interfaceOkFields rest
end

/-- Decoding a JSON value into an `interface{}`: `null` gives the nil interface, any other
value is stored as `encoding/json` builds it; a number out of the range of `float64`,
at any depth, is an error. -/
def decodeInterface : Json → Option (Option Json)
  | .null => some none
  | j => if interfaceOk j then some (some (interfaceValue j)) else none

/-! ## The callback envelope of `PaymentCallback` -/

/-- One element of `CallbackMetadata.Item`. -/
structure MetadataItem where
  Name : String
  Value : Option Json

/-- The struct `CallbackMetadata`. -/
structure CallbackMetadata where
  Item : List MetadataItem

/-- The struct `stkCallback`. -/
structure StkCallback where
  CheckoutRequestID : String
  ResultCode : Int
  ResultDesc : String
  CallbackMetadata : CallbackMetadata

/-- The struct `Body`. -/
structure CallbackBody where
  StkCallback : StkCallback

/-- The local variable `callback` of `PaymentCallback`. -/
structure Callback where
  Body : CallbackBody

/-- The zero value of `callback`, which `ShouldBindJSON` decodes into. -/
def Callback.zero : Callback := ⟨⟨⟨"", 0, "", ⟨[]⟩⟩⟩⟩

/-- Decoding one member of an object into a metadata item. Unknown keys are skipped. -/
def setItemField (cur : MetadataItem) (key : String) (v : Json) : Option MetadataItem :=
  if matchesField key "Name" then (decodeString cur.Name v).map (fun x => { cur with Name := x })
  else if matchesField key "Value" then (decodeInterface v).map (fun x => { cur with Value := x })
  else some cur

/-- Decoding a JSON value into a metadata item. -/
def decodeItem (cur : MetadataItem) : Json → Option MetadataItem
  | .null => some cur
  | .obj kvs => kvs.foldlM (fun acc kv => setItemField acc kv.1 kv.2) cur
  | _ => none

/-- Decoding a JSON value into the slice `Item`. The handler never reads the elements; only
whether they decode is observable, so each element is decoded into a zero item. -/
def decodeItems (_cur : List MetadataItem) : Json → Option (List MetadataItem)
  | .null => some []
  | .arr js => js.mapM (decodeItem ⟨"", none⟩)
  | _ => none

/-- Decoding one member of an object into `CallbackMetadata`. -/
def setMetadataField (cur : CallbackMetadata) (key : String) (v : Json) :
    Option CallbackMetadata :=
  if matchesField key "Item" then (decodeItems cur.Item v).map (fun x => { cur with Item := x })
  else some cur

/-- Decoding a JSON value into `CallbackMetadata`. -/
def decodeMetadata (cur : CallbackMetadata) : Json → Option CallbackMetadata
  | .null => some cur
  | .obj kvs => kvs.foldlM (fun acc kv => setMetadataField acc kv.1 kv.2) cur
  | _ => none

/-- Decoding one member of an object into `stkCallback`. -/
def setStkField (cur : StkCallback) (key : String) (v : Json) : Option StkCallback :=
  if matchesField key "CheckoutRequestID" then
    (decodeString cur.CheckoutRequestID v).map (fun x => { cur with CheckoutRequestID := x })
  else if matchesField key "ResultCode" then
    (decodeInt cur.ResultCode v).map (fun x => { cur with ResultCode := x })
  else if matchesField key "ResultDesc" then
    (decodeString cur.ResultDesc v).map (fun x => { cur with ResultDesc := x })
  else if matchesField key "CallbackMetadata" then
    (decodeMetadata cur.CallbackMetadata v).map (fun x => { cur with CallbackMetadata := x })
  else some cur

/-- Decoding a JSON value into `stkCallback`. -/
def decodeStkCallback (cur : StkCallback) : Json → Option StkCallback
  | .null => some cur
  | .obj kvs => kvs.foldlM (fun acc kv => setStkField acc kv.1 kv.2) cur
  | _ => none

/-- Decoding one member of an object into `Body`. -/
def setBodyField (cur : CallbackBody) (key : String) (v : Json) : Option CallbackBody :=
  if matchesField key "stkCallback" then
    (decodeStkCallback cur.StkCallback v).map (fun x => { cur with StkCallback := x })
  else some cur

/-- Decoding a JSON value into `Body`. -/
def decodeCallbackBody (cur : CallbackBody) : Json → Option CallbackBody
  | .null => some cur
  | .obj kvs => kvs.foldlM (fun acc kv => setBodyField acc kv.1 kv.2) cur
  | _ => none

/-- Decoding one member of an object into `callback`. -/
def setCallbackField (cur : Callback) (key : String) (v : Json) : Option Callback :=
  if matchesField key "Body" then
    (decodeCallbackBody cur.Body v).map (fun x => { cur with Body := x })
  else some cur

/-- Decoding a JSON value into `callback`. -/
def decodeCallback (cur : Callback) : Json → Option Callback
  | .null => some cur
  | .obj kvs => kvs.foldlM (fun acc kv => setCallbackField acc kv.1 kv.2) cur
  | _ => none

/-- The call `c.ShouldBindJSON(&callback)` of `PaymentCallback`. The argument is the first
JSON value of the request body, `none` when the body holds none (empty body, syntax error).
The struct has no `binding` tag, so there is no validation after decoding. The result is
`none` when the call returns an error. -/
def bindCallback (body : Option Json) : Option Callback :=
  match body with
  | none => none
  | some j => decodeCallback Callback.zero j

/-! ## Which bodies fit the callback envelope

A description of the bodies that `c.ShouldBindJSON(&callback)` accepts, by the shape of the
JSON value alone: `null` fits every field, and every member of an object has to fit the field
that its key selects. -/

/-- A JSON value that fits a Go `string`: `null` or a string. -/
def fitsString : Json → Bool
  | .null => true
  | .str _ => true
  | _ => false

/-- A JSON value that fits a Go `int`: `null` or an integer literal within 64 bits. -/
def fitsInt : Json → Bool
  | .null => true
  | .num lit => (ParseInt lit).isSome
  | _ => false

/-- A member of an element of `Item`: `Name` takes a string, `Value` any value whose numbers
are in the range of `float64`, any other key is ignored. -/
def fitsItemMember (key : String) (v : Json) : Bool :=
  if matchesField key "Name" then fitsString v
  else if matchesField key "Value" then interfaceOk v
  else true

/-- An element of `Item`: `null` or an object whose members fit. -/
def fitsItem : Json → Bool
  | .null => true
  | .obj kvs => kvs.all (fun kv => fitsItemMember kv.1 kv.2)
  | _ => false

/-- The value of `Item`: `null` or an array whose elements fit. -/
def fitsItems : Json → Bool
  | .null => true
  | .arr js => js.all fitsItem
  | _ => false

/-- A member of `CallbackMetadata`. -/
def fitsMetadataMember (key : String) (v : Json) : Bool :=
  if matchesField key "Item" then fitsItems v else true

/-- The value of `CallbackMetadata`: `null` or an object whose members fit. -/
def fitsMetadata : Json → Bool
  | .null => true
  | .obj kvs => kvs.all (fun kv => fitsMetadataMember kv.1 kv.2)
  | _ => false

/-- A member of `stkCallback`. -/
def fitsStkMember (key : String) (v : Json) : Bool :=
  if matchesField key "CheckoutRequestID" then fitsString v
  else if matchesField key "ResultCode" then fitsInt v
  else if matchesField key "ResultDesc" then fitsString v
  else if matchesField key "CallbackMetadata" then fitsMetadata v
  else true

/-- The value of `stkCallback`: `null` or an object whose members fit. -/
def fitsStkCallback : Json → Bool
  | .null => true
  | .obj kvs => kvs.all (fun kv => fitsStkMember kv.1 kv.2)
  | _ => false

/-- A member of `Body`. -/
def fitsBodyMember (key : String) (v : Json) : Bool :=
  if matchesField key "stkCallback" then fitsStkCallback v else true

/-- The value of `Body`: `null` or an object whose members fit. -/
def fitsCallbackBody : Json → Bool
  | .null => true
  | .obj kvs => kvs.all (fun kv => fitsBodyMember kv.1 kv.2)
  | _ => false

/-- A member of the envelope. -/
def fitsEnvelopeMember (key : String) (v : Json) : Bool :=
  if matchesField key "Body" then fitsCallbackBody v else true

/-- A request body that can be parsed into the callback envelope: it holds a JSON value, and
the value is `null` or an object whose members fit. -/
def parsesAsCallback : Option Json → Bool
  | none => false
  | some .null => true
  | some (.obj kvs) => kvs.all (fun kv => fitsEnvelopeMember kv.1 kv.2)
  | some _ => false

/-! ## HTTP -/

/-- Body of an outbound request: absent, a literal text, or `json.Marshal` of a value. -/
inductive Payload where
  | empty
  | text (s : String)
  | json (j : Json)

/-- A call on the HTTP client (`client.Do(req)` or `http.Post`). -/
structure HttpRequest where
  method : String
  url : String
  headers : List (String × String)
  body : Payload

/-- What the HTTP client returns when it returns no error: the status code and the first JSON
value of the response body (`none` when the body holds none). -/
structure HttpResponse where
  statusCode : Nat
  body : Option Json

/-- The network: for every call on the HTTP client, a response, or `none` for an error. -/
abbrev Transport := HttpRequest → Option HttpResponse

/-- The environment, as `os.Getenv` reads it. -/
abbrev Env := String → String

/-- What a handler writes with `c.JSON`. -/
structure Response where
  status : Nat
  body : Json

/-- A `gin.H` holding one string, as `c.JSON` writes it. -/
def jsonMsg (key val : String) : Json := .obj [(key, .str val)]

/-! ## `PaymentCallback` -/

/-- The text `fmt.Sprintf` builds for the body of the status update, from the format
`\x7b"status": "%s"\x7d`. -/
def statusPayload (status : String) : String := "\x7b\"status\": \"" ++ status ++ "\"\x7d"

/-- The call `http.Post(updateURL, "application/json", ...)` of `PaymentCallback`, for the
identifier put in the URL and the status. -/
def statusUpdate (env : Env) (id status : String) : HttpRequest :=
  let updateURL := env "ORDERS_SERVICE_URL" ++ "/orders/" ++ id ++ "/status"
  ⟨"POST", updateURL, [("Content-Type", "application/json")], .text (statusPayload status)⟩

/-- `PaymentHandler.PaymentCallback`: the response written and the calls made on the HTTP
client, in order. An error of `http.Post` is logged and changes nothing else. -/
def PaymentCallback (env : Env) (net : Transport) (body : Option Json) :
    Response × List HttpRequest :=
  match bindCallback body with
  | none => (⟨400, jsonMsg "error" "Invalid callback format"⟩, [])
  | some callback =>
    let status := if callback.Body.StkCallback.ResultCode = 0 then "paid" else "failed"
    let post := statusUpdate env callback.Body.StkCallback.CheckoutRequestID status
    match net post with
    | none => (⟨200, jsonMsg "message" "Callback processed"⟩, [post])
    | some _ => (⟨200, jsonMsg "message" "Callback processed"⟩, [post])

/-- The calls made on the HTTP client by a sequence of deliveries to `PaymentCallback`, each
delivery with the request body it carries and the network as it answers then. -/
def deliverAll (env : Env) (inputs : List (Transport × Option Json)) : List HttpRequest :=
  inputs.flatMap (fun inp => (PaymentCallback env inp.1 inp.2).2)

/-! ## Helpers of `ProcessPayment`: base64, the timestamp, the request struct -/

/-- The alphabet of `base64.StdEncoding`. -/
def encodeStd : String := "ABCDEFGHIJKLMNOPQRSTUVWXYZabcdefghijklmnopqrstuvwxyz0123456789+/"

/-- The character of a 6-bit value in the standard alphabet. -/
def b64Char (n : Nat) : Char := encodeStd.data.getD n '='

/-- `base64.StdEncoding.EncodeToString` on a list of bytes: three bytes give four characters,
a last group of one or two bytes is padded with `=`. -/
def encodeBytes : List Nat → List Char
  | [] => []
  | [a] => [b64Char (a / 4), b64Char (a % 4 * 16), '=', '=']
  | [a, b] => [b64Char (a / 4), b64Char (a % 4 * 16 + b / 16), b64Char (b % 16 * 4), '=']
  | a :: b :: c :: rest =>
    b64Char (a / 4) :: b64Char (a % 4 * 16 + b / 16) :: b64Char (b % 16 * 4 + c / 64) ::
      b64Char (c % 64) :: encodeBytes rest

/-- The bytes of a string (`[]byte(s)`), in UTF-8. -/
def utf8Bytes (s : String) : List Nat :=
  (s.data.flatMap String.utf8EncodeChar).map UInt8.toNat

/-- `base64.StdEncoding.EncodeToString([]byte(s))`. -/
def EncodeToString (s : String) : String := ⟨encodeBytes (utf8Bytes s)⟩

/-- A reading of the clock (`time.Now()`), in calendar fields. -/
structure Time where
  year : Nat
  month : Nat
  day : Nat
  hour : Nat
  minute : Nat
  second : Nat

/-- A number in decimal, padded with zeros to at least `width` digits. -/
def zeroPad (width n : Nat) : String :=
  let d := Nat.repr n
  ⟨List.replicate (width - d.length) '0'⟩ ++ d

/-- `t.Format("20060102150405")`. -/
def Time.Format (t : Time) : String :=
  zeroPad 4 t.year ++ zeroPad 2 t.month ++ zeroPad 2 t.day ++
    zeroPad 2 t.hour ++ zeroPad 2 t.minute ++ zeroPad 2 t.second

/-- The local variable `paymentRequest` of `ProcessPayment`. -/
structure PaymentRequest where
  OrderID : Nat
  Amount : String
  PhoneNumber : String

/-- Decoding one member of an object into `paymentRequest`. -/
def setPaymentField (cur : PaymentRequest) (key : String) (v : Json) : Option PaymentRequest :=
  if matchesField key "order_id" then
    (decodeUint cur.OrderID v).map (fun x => { cur with OrderID := x })
  else if matchesField key "amount" then
    (decodeString cur.Amount v).map (fun x => { cur with Amount := x })
  else if matchesField key "phone" then
    (decodeString cur.PhoneNumber v).map (fun x => { cur with PhoneNumber := x })
  else some cur

/-- Decoding a JSON value into `paymentRequest`. -/
def decodePaymentRequest (cur : PaymentRequest) : Json → Option PaymentRequest
  | .null => some cur
  | .obj kvs => kvs.foldlM (fun acc kv => setPaymentField acc kv.1 kv.2) cur
  | _ => none

/-- The validation of the three `binding:"required"` tags: no field holds its zero value. -/
def validatePaymentRequest (r : PaymentRequest) : Bool :=
  r.OrderID != 0 && r.Amount != "" && r.PhoneNumber != ""

/-- The call `c.ShouldBindJSON(&paymentRequest)`: decoding, then validation. -/
def bindPaymentRequest (body : Option Json) : Option PaymentRequest :=
  match body with
  | none => none
  | some j =>
    match decodePaymentRequest ⟨0, "", ""⟩ j with
    | none => none
    | some r => if validatePaymentRequest r then some r else none

/-- What `json.NewDecoder(resp.Body).Decode(&result)` leaves in `result.AccessToken` of
`getMpesaToken`. The error of `Decode` is dropped by the caller, so a member that does not
decode leaves the field as it is and decoding goes on. -/
def decodeAccessToken (body : Option Json) : String :=
  match body with
  | some (.obj kvs) =>
    kvs.foldl (fun cur kv =>
      if matchesField kv.1 "access_token" then
        match kv.2 with
        | .str s => s
        | _ => cur
      else cur) ""
  | _ => ""

/-- The index expression `result[key]` on the `map[string]interface{}` that
`json.NewDecoder(resp.Body).Decode(&result)` filled in `ProcessPayment`, as `c.JSON` writes
it: the value the map holds under the key, the nil interface (`null`) when the key is absent
or when the body is not an object. The error of `Decode` is dropped by the caller. -/
def mapIndex (body : Option Json) (key : String) : Json :=
  match body with
  | some (.obj kvs) =>
    match mapLookup (interfaceMap kvs []) key with
    | some v => v
    | none => .null
  | _ => .null

/-- The map `result` of `ProcessPayment` as `c.JSON` writes it: the object of the response
body decoded into a `map[string]interface{}` and marshalled again, the nil map (`null`) when
the body is not an object. -/
def decodeResult (body : Option Json) : Json :=
  match body with
  | some (.obj kvs) => .obj (interfaceMap kvs [])
  | _ => .null

/-! ## `getMpesaToken` and `ProcessPayment` -/

/-- The URL of the credential exchange. -/
def credentialExchangeURL : String :=
  "https://sandbox.safaricom.co.ke/oauth/v1/generate?grant_type=client_credentials"

/-- The request `getMpesaToken` sends. -/
def tokenRequest (env : Env) : HttpRequest :=
  let auth := EncodeToString (env "MPESA_CONSUMER_KEY" ++ ":" ++ env "MPESA_CONSUMER_SECRET")
  ⟨"GET", credentialExchangeURL, [("Authorization", "Basic " ++ auth)], .empty⟩

/-- Whether a call on the HTTP client is a credential exchange. -/
def isCredentialExchange (req : HttpRequest) : Bool :=
  req.method == "GET" && req.url == credentialExchangeURL

/-- `PaymentHandler.getMpesaToken`: the token or the error, and the calls made on the HTTP
client. The status code of the response is not read. -/
def getMpesaToken (env : Env) (net : Transport) : Except String String × List HttpRequest :=
  let req := tokenRequest env
  match net req with
  | none => (.error "transport error", [req])
  | some resp => (.ok (decodeAccessToken resp.body), [req])

/-- The request `ProcessPayment` sends to the gateway (`stkRequest` marshalled, with the two
headers). `json.Marshal` writes the keys of a map in sorted order. -/
def stkPushRequest (env : Env) (timestamp token : String) (r : PaymentRequest) : HttpRequest :=
  let password := EncodeToString
    (env "MPESA_BUSINESS_SHORTCODE" ++ env "MPESA_PASSKEY" ++ timestamp)
  let stkRequest : Json := .obj [
    ("AccountReference", .str ("ORDER_" ++ Nat.repr r.OrderID)),
    ("Amount", .str r.Amount),
    ("BusinessShortCode", .str (env "MPESA_BUSINESS_SHORTCODE")),
    ("CallBackURL", .str (env "MPESA_CALLBACK_URL")),
    ("PartyA", .str r.PhoneNumber),
    ("PartyB", .str (env "MPESA_BUSINESS_SHORTCODE")),
    ("Password", .str password),
    ("PhoneNumber", .str r.PhoneNumber),
    ("Timestamp", .str timestamp),
    ("TransactionDesc", .str "Order Payment"),
    ("TransactionType", .str "CustomerPayBillOnline")]
  ⟨"POST", "https://sandbox.safaricom.co.ke/mpesa/stkpush/v1/processrequest",
    [("Content-Type", "application/json"), ("Authorization", "Bearer " ++ token)],
    .json stkRequest⟩

/-- `PaymentHandler.ProcessPayment`: the response written and the calls made on the HTTP
client, in order. `now` is the clock read after the token was fetched. -/
def ProcessPayment (env : Env) (net : Transport) (now : Time) (body : Option Json) :
    Response × List HttpRequest :=
  match bindPaymentRequest body with
  | none => (⟨400, jsonMsg "error" "Invalid request format"⟩, [])
  | some paymentRequest =>
    match getMpesaToken env net with
    | (.error _, calls) => (⟨500, jsonMsg "error" "Payment initialization failed"⟩, calls)
    | (.ok token, calls) =>
      let timestamp := now.Format
      let req := stkPushRequest env timestamp token paymentRequest
      match net req with
      | none => (⟨500, jsonMsg "error" "Payment processing failed"⟩, calls ++ [req])
      | some resp =>
        let result := decodeResult resp.body
        if resp.statusCode ≠ 200 then
          (⟨400, .obj [("detail", result), ("error", .str "Payment failed")]⟩, calls ++ [req])
        else
          (⟨200, .obj [("checkout_request_id", mapIndex resp.body "CheckoutRequestID"),
            ("message", .str "Payment initiated")]⟩, calls ++ [req])

/-! ## The order service -/

/-- `models.Product`; `F` stands for `float64`. Of the embedded `gorm.Model` only `ID` is
kept: no code of the repository reads the timestamps. -/
structure Product (F : Type) where
  ID : Nat
  Name : String
  Price : F

/-- `models.Order`; `F` stands for `float64`. `Total` is not a column (`gorm:"-"`). -/
structure Order (F : Type) where
  ID : Nat
  CustomerID : Nat
  Products : List (Product F)
  Status : String
  Total : F

/-- The hook `Order.AfterFind`: the loop adds the price of each product to `Total`. -/
def Order.AfterFind {F : Type} [Add F] (o : Order F) : Order F × Option String :=
  ({ o with Total := o.Products.foldl (fun total product => total + product.Price) o.Total },
    none)

/-- The database behind `OrderRepository`: the rows of the orders table with their products
preloaded, and whether the connection is broken (every statement then returns an error and
changes nothing). -/
structure DB (F : Type) where
  orders : List (Order F)
  down : Bool

/-- `OrderRepository.UpdateOrderStatus`: `UPDATE orders SET status = ? WHERE id = ?`. The
error is nil also when no row has that id. -/
def OrderRepository.UpdateOrderStatus {F : Type} (db : DB F) (id : Nat) (status : String) :
    DB F × Option String :=
  if db.down then (db, some "database error")
  else
    let rows := db.orders.map (fun o => if o.ID = id then { o with Status := status } else o)
    ({ db with orders := rows }, none)

/-- `OrderRepository.GetOrder`: the first row with that id, after the hook `AfterFind` ran on
it with `Total` at its zero value; the error `record not found` when there is none. -/
def OrderRepository.GetOrder {F : Type} [Add F] [Zero F] (db : DB F) (id : Nat) :
    Except String (Order F) :=
  if db.down then .error "database error"
  else
    match db.orders.find? (fun o => o.ID == id) with
    | none => .error "record not found"
    | some o => .ok ({ o with Total := 0 } : Order F).AfterFind.1

/-- The local variable `status` of `OrderHandler.UpdateOrderStatus`. -/
structure StatusInput where
  Status : String

/-- Decoding one member of an object into `status`. -/
def setStatusField (cur : StatusInput) (key : String) (v : Json) : Option StatusInput :=
  if matchesField key "status" then
    (decodeString cur.Status v).map (fun x => { cur with Status := x })
  else some cur

/-- Decoding a JSON value into `status`. -/
def decodeStatusInput (cur : StatusInput) : Json → Option StatusInput
  | .null => some cur
  | .obj kvs => kvs.foldlM (fun acc kv => setStatusField acc kv.1 kv.2) cur
  | _ => none

/-- The call `c.ShouldBindJSON(&status)` of `OrderHandler.UpdateOrderStatus`; the struct has
no `binding` tag. -/
def bindStatus (body : Option Json) : Option StatusInput :=
  match body with
  | none => none
  | some j => decodeStatusInput ⟨""⟩ j

/-- `OrderHandler.UpdateOrderStatus`, given the path parameter `id` and the request body.
The error of `strconv.Atoi` is dropped. The text of `err.Error()` in the 400 response is the
one of the library and is not modelled. -/
def OrderHandler.UpdateOrderStatus {F : Type} (db : DB F) (idParam : String)
    (body : Option Json) : Response × DB F :=
  let id := (Atoi idParam).1
  match bindStatus body with
  | none => (⟨400, jsonMsg "error" "invalid request"⟩, db)
  | some status =>
    match OrderRepository.UpdateOrderStatus db (toUint id) status.Status with
    | (db1, some _) => (⟨500, jsonMsg "error" "Status update failed"⟩, db1)
    | (db1, none) => (⟨200, jsonMsg "message" "Status updated successfully"⟩, db1)

/-- The handlers that `main` of the order service registers, with the value of the path
parameter where the route has one. -/
inductive Route where
  | CreateCustomer
  | CreateOrder
  | GetOrder (id : String)
  | UpdateOrderStatus (id : String)
  | GetProducts
  | CreateProduct
  deriving DecidableEq

/-- The segments of a path between its slashes. -/
def splitPath : List Char → List String
  | [] => [""]
  | c :: cs =>
    match splitPath cs with
    | [] => [""]
    | seg :: rest => if c = '/' then "" :: seg :: rest else ⟨c :: seg.data⟩ :: rest

/-- The route table of `main` in `orderservice/main.go`: the handler gin dispatches a request
to, by method and path. A path parameter holds one segment; as last segment it is not empty. -/
def route (method path : String) : Option Route :=
  match method, splitPath path.data with
  | "POST", ["", "customers"] => some .CreateCustomer
  | "POST", ["", "orders"] => some .CreateOrder
  | "GET", ["", "orders", id] => if id = "" then none else some (.GetOrder id)
  | "PUT", ["", "orders", id, "status"] => some (.UpdateOrderStatus id)
  | "GET", ["", "products"] => some .GetProducts
  | "POST", ["", "products"] => some .CreateProduct
  | _, _ => none

/-! ## Decoding base64 -/

/-- The 6-bit value of a character of the standard alphabet (the `decodeMap` of
`base64.StdEncoding`), `none` for a character outside it. -/
def b64Val (c : Char) : Option Nat :=
  let i := encodeStd.data.indexOf c
  if i < 64 then some i else none

/-- `base64.StdEncoding.DecodeString` on a list of characters: four characters give three
bytes; a last group ending in one or two `=` gives two bytes or one. -/
def decodeChars : List Char → Option (List Nat)
  | [] => some []
  | c1 :: c2 :: c3 :: c4 :: rest =>
    if c4 = '=' then
      if rest.isEmpty then
        if c3 = '=' then
          match b64Val c1, b64Val c2 with
          | some a, some b => some [a * 4 + b / 16]
          | _, _ => none
        else
          match b64Val c1, b64Val c2, b64Val c3 with
          | some a, some b, some c => some [a * 4 + b / 16, b % 16 * 16 + c / 4]
          | _, _, _ => none
      else none
    else
      match b64Val c1, b64Val c2, b64Val c3, b64Val c4, decodeChars rest with
      | some a, some b, some c, some d, some tl =>
        some ((a * 4 + b / 16) :: (b % 16 * 16 + c / 4) :: (c % 4 * 64 + d) :: tl)
      | _, _, _, _, _ => none
  | _ => none

/-- `base64.StdEncoding.DecodeString`: the bytes, `none` for an error. -/
def DecodeString (s : String) : Option (List Nat) := decodeChars s.data

/-- The member `key` of a request body that is a marshalled JSON object. -/
def Payload.member (p : Payload) (key : String) : Option Json :=
  match p with
  | .json (.obj kvs) => (kvs.find? (fun kv => kv.1 == key)).map (fun kv => kv.2)
  | _ => none

/-! ## Concrete inputs -/

/-- An environment with the order service at `http://orders:8080`. -/
def sampleEnv : Env := fun name =>
  if name = "ORDERS_SERVICE_URL" then "http://orders:8080"
  else if name = "MPESA_BUSINESS_SHORTCODE" then "174379"
  else if name = "MPESA_PASSKEY" then "passkey"
  else if name = "MPESA_CALLBACK_URL" then "https://pay.example/callback"
  else if name = "MPESA_CONSUMER_KEY" then "key"
  else if name = "MPESA_CONSUMER_SECRET" then "secret"
  else ""

/-- A callback body holding `Body.stkCallback` with the members `CheckoutRequestID` (a string)
and `ResultCode` (a number, given by its literal). -/
def callbackJson (id code : String) : Option Json :=
  some (.obj [("Body", .obj [("stkCallback",
    .obj [("CheckoutRequestID", .str id), ("ResultCode", .num code)])])])

/-- A network on which every call fails. -/
def netDown : Transport := fun _ => none

/-- A network on which every call is answered with status 200 and an empty body. -/
def netUp : Transport := fun _ => some ⟨200, none⟩

/-- A request body of `ProcessPayment` with the members `order_id` (a number, given by its
literal), `amount` and `phone`. -/
def paymentJson (orderId amount phone : String) : Option Json :=
  some (.obj [("order_id", .num orderId), ("amount", .str amount), ("phone", .str phone)])

/-- A gateway that answers the credential exchange with the token `tok` and the initiation
with the reference `ws_123`, both with status 200. -/
def netGateway : Transport := fun req =>
  if isCredentialExchange req then some ⟨200, some (.obj [("access_token", .str "tok")])⟩
  else some ⟨200, some (.obj [("CheckoutRequestID", .str "ws_123")])⟩

/-- A gateway that rejects the credentials: every call is answered with status 401 and a
body that has no `access_token`. -/
def netUnauthorized : Transport := fun _ =>
  some ⟨401, some (.obj [("errorMessage", .str "Invalid Access Token")])⟩

/-- A reading of the clock. -/
def sampleTime : Time := ⟨2024, 1, 2, 3, 4, 5⟩

/-- A database holding the order 42 in status `pending`. -/
def sampleDB : DB Nat := ⟨[⟨42, 7, [], "pending", 0⟩], false⟩

/-- A gateway that answers the credential exchange with the token `tok` and the initiation
with status 200 and a body that has no `CheckoutRequestID`. -/
def netNoReference : Transport := fun req =>
  if isCredentialExchange req then some ⟨200, some (.obj [("access_token", .str "tok")])⟩
  else some ⟨200, some (.obj [("ResponseCode", .str "0")])⟩

/-- A callback whose metadata holds a `Value` out of the range of `float64`. -/
def metadataOutOfRange : Option Json :=
  some (.obj [("Body", .obj [("stkCallback", .obj [("CheckoutRequestID", .str "ws_123"),
    ("ResultCode", .num "0"),
    ("CallbackMetadata", .obj [("Item", .arr [.obj [("Name", .str "Amount"),
      ("Value", .num "1e400")]])])])])])

/-! ## Theorems -/

/-- What `PaymentCallback` does with a body that binds. -/
theorem paymentCallback_bound (env : Env) (net : Transport) (body : Option Json)
    (callback : Callback) (h : bindCallback body = some callback) :
    PaymentCallback env net body =
      (⟨200, jsonMsg "message" "Callback processed"⟩,
        [statusUpdate env callback.Body.StkCallback.CheckoutRequestID
          (if callback.Body.StkCallback.ResultCode = 0 then "paid" else "failed")]) := by
  unfold PaymentCallback
  rw [h]
  simp only
  cases net _ <;> rfl

/-- What `PaymentCallback` does with a body that does not bind. -/
theorem paymentCallback_unbound (env : Env) (net : Transport) (body : Option Json)
    (h : bindCallback body = none) :
    PaymentCallback env net body = (⟨400, jsonMsg "error" "Invalid callback format"⟩, []) := by
  unfold PaymentCallback
  rw [h]

/-- A fold over the members of an object succeeds when every member can be stored. -/
theorem foldlM_isSome {σ α : Type} (f : σ → α → Option σ) (ok : α → Bool)
    (h : ∀ s a, (f s a).isSome = ok a) (l : List α) (s : σ) :
    (l.foldlM f s).isSome = l.all ok := by
  induction l generalizing s with
  | nil => rfl
  | cons a rest ih =>
    simp only [List.foldlM_cons, List.all_cons]
    have ha := h s a
    cases hf : f s a with
    | none => rw [hf] at ha; simp [← ha]
    | some t => rw [hf] at ha; simp [← ha, ih t]

/-- Decoding the elements of an array succeeds when every element decodes. -/
theorem mapM_isSome {α β : Type} (g : α → Option β) (l : List α) :
    (l.mapM g).isSome = l.all (fun a => (g a).isSome) := by
  induction l with
  | nil => rfl
  | cons a rest ih =>
    simp only [List.mapM_cons, List.all_cons]
    cases hg : g a with
    | none => simp
    | some b =>
      cases hr : rest.mapM g with
      | none => rw [hr] at ih; simp [← ih]
      | some bs => rw [hr] at ih; simp [← ih]

/-- A value decodes into a `string` exactly when it fits one. -/
theorem decodeString_isSome (cur : String) (v : Json) :
    (decodeString cur v).isSome = fitsString v := by
  cases v <;> rfl

/-- A value decodes into an `int` exactly when it fits one. -/
theorem decodeInt_isSome (cur : Int) (v : Json) : (decodeInt cur v).isSome = fitsInt v := by
  cases v <;> rfl

/-- A value decodes into an `interface{}` exactly when its numbers are in range. -/
theorem decodeInterface_isSome (v : Json) : (decodeInterface v).isSome = interfaceOk v := by
  cases v <;> simp [decodeInterface, interfaceOk] <;> split <;> simp_all

/-- A member is stored into an item exactly when it fits. -/
theorem setItemField_isSome (cur : MetadataItem) (key : String) (v : Json) :
    (setItemField cur key v).isSome = fitsItemMember key v := by
  unfold setItemField fitsItemMember
  split
  · rw [Option.isSome_map', decodeString_isSome]
  · split
    · rw [Option.isSome_map', decodeInterface_isSome]
    · rfl

/-- A value decodes into an item exactly when it fits. -/
theorem decodeItem_isSome (cur : MetadataItem) (v : Json) :
    (decodeItem cur v).isSome = fitsItem v := by
  cases v with
  | obj kvs =>
    exact foldlM_isSome (fun acc kv => setItemField acc kv.1 kv.2)
      (fun kv => fitsItemMember kv.1 kv.2) (fun s a => setItemField_isSome s a.1 a.2) kvs cur
  | _ => rfl

/-- A value decodes into the slice `Item` exactly when it fits. -/
theorem decodeItems_isSome (cur : List MetadataItem) (v : Json) :
    (decodeItems cur v).isSome = fitsItems v := by
  cases v with
  | arr js =>
    simp only [decodeItems, fitsItems, mapM_isSome]
    congr 1
    funext j
    exact decodeItem_isSome _ j
  | _ => rfl

/-- A member is stored into `CallbackMetadata` exactly when it fits. -/
theorem setMetadataField_isSome (cur : CallbackMetadata) (key : String) (v : Json) :
    (setMetadataField cur key v).isSome = fitsMetadataMember key v := by
  unfold setMetadataField fitsMetadataMember
  split
  · rw [Option.isSome_map', decodeItems_isSome]
  · rfl

/-- A value decodes into `CallbackMetadata` exactly when it fits. -/
theorem decodeMetadata_isSome (cur : CallbackMetadata) (v : Json) :
    (decodeMetadata cur v).isSome = fitsMetadata v := by
  cases v with
  | obj kvs =>
    exact foldlM_isSome (fun acc kv => setMetadataField acc kv.1 kv.2)
      (fun kv => fitsMetadataMember kv.1 kv.2)
      (fun s a => setMetadataField_isSome s a.1 a.2) kvs cur
  | _ => rfl

/-- A member is stored into `stkCallback` exactly when it fits. -/
theorem setStkField_isSome (cur : StkCallback) (key : String) (v : Json) :
    (setStkField cur key v).isSome = fitsStkMember key v := by
  unfold setStkField fitsStkMember
  split
  · rw [Option.isSome_map', decodeString_isSome]
  · split
    · rw [Option.isSome_map', decodeInt_isSome]
    · split
      · rw [Option.isSome_map', decodeString_isSome]
      · split
        · rw [Option.isSome_map', decodeMetadata_isSome]
        · rfl

/-- A value decodes into `stkCallback` exactly when it fits. -/
theorem decodeStkCallback_isSome (cur : StkCallback) (v : Json) :
    (decodeStkCallback cur v).isSome = fitsStkCallback v := by
  cases v with
  | obj kvs =>
    exact foldlM_isSome (fun acc kv => setStkField acc kv.1 kv.2)
      (fun kv => fitsStkMember kv.1 kv.2) (fun s a => setStkField_isSome s a.1 a.2) kvs cur
  | _ => rfl

/-- A member is stored into `Body` exactly when it fits. -/
theorem setBodyField_isSome (cur : CallbackBody) (key : String) (v : Json) :
    (setBodyField cur key v).isSome = fitsBodyMember key v := by
  unfold setBodyField fitsBodyMember
  split
  · rw [Option.isSome_map', decodeStkCallback_isSome]
  · rfl

/-- A value decodes into `Body` exactly when it fits. -/
theorem decodeCallbackBody_isSome (cur : CallbackBody) (v : Json) :
    (decodeCallbackBody cur v).isSome = fitsCallbackBody v := by
  cases v with
  | obj kvs =>
    exact foldlM_isSome (fun acc kv => setBodyField acc kv.1 kv.2)
      (fun kv => fitsBodyMember kv.1 kv.2) (fun s a => setBodyField_isSome s a.1 a.2) kvs cur
  | _ => rfl

/-- A member is stored into the envelope exactly when it fits. -/
theorem setCallbackField_isSome (cur : Callback) (key : String) (v : Json) :
    (setCallbackField cur key v).isSome = fitsEnvelopeMember key v := by
  unfold setCallbackField fitsEnvelopeMember
  split
  · rw [Option.isSome_map', decodeCallbackBody_isSome]
  · rfl

/-- The binding of `PaymentCallback` succeeds exactly on the bodies that can be parsed into
the callback envelope. -/
theorem bindCallback_isSome (body : Option Json) :
    (bindCallback body).isSome = parsesAsCallback body := by
  cases body with
  | none => rfl
  | some j =>
    cases j with
    | obj kvs =>
      exact foldlM_isSome (fun acc kv => setCallbackField acc kv.1 kv.2)
        (fun kv => fitsEnvelopeMember kv.1 kv.2)
        (fun s a => setCallbackField_isSome s a.1 a.2) kvs Callback.zero
    | _ => rfl

/-- C1: for a parseable callback, `PaymentCallback` makes exactly one call, a POST to the
status URL of the order service, and the body of that request is the text with the status
"paid" if and only if `ResultCode` is 0 and the text with the status "failed" if and only if
it is not; no other body is sent. -/
theorem paymentCallback_status_of_resultCode (env : Env) (net : Transport)
    (body : Option Json) (callback : Callback) (h : bindCallback body = some callback) :
    ∃ req : HttpRequest,
      (PaymentCallback env net body).2 = [req] ∧
      req.method = "POST" ∧
      req.url = env "ORDERS_SERVICE_URL" ++ "/orders/" ++
        callback.Body.StkCallback.CheckoutRequestID ++ "/status" ∧
      (req.body = .text "\x7b\"status\": \"paid\"\x7d" ↔
        callback.Body.StkCallback.ResultCode = 0) ∧
      (req.body = .text "\x7b\"status\": \"failed\"\x7d" ↔
        callback.Body.StkCallback.ResultCode ≠ 0) ∧
      (req.body = .text "\x7b\"status\": \"paid\"\x7d" ∨
        req.body = .text "\x7b\"status\": \"failed\"\x7d") := by
  rw [paymentCallback_bound env net body callback h]
  have hpaid : statusPayload "paid" = "\x7b\"status\": \"paid\"\x7d" := by decide
  have hfailed : statusPayload "failed" = "\x7b\"status\": \"failed\"\x7d" := by decide
  have hne : ("\x7b\"status\": \"paid\"\x7d" : String) ≠ "\x7b\"status\": \"failed\"\x7d" := by
    decide
  by_cases hc : callback.Body.StkCallback.ResultCode = 0
  · refine ⟨_, rfl, rfl, rfl, ?_, ?_, ?_⟩
    · simp [statusUpdate, hc, hpaid]
    · simp only [statusUpdate, hc, if_true, hpaid, Payload.text.injEq, ne_eq, not_true,
        iff_false]
      exact hne
    · left; simp [statusUpdate, hc, hpaid]
  · refine ⟨_, rfl, rfl, rfl, ?_, ?_, ?_⟩
    · simp only [statusUpdate, hc, if_false, hfailed, Payload.text.injEq, iff_false]
      exact fun e => hne e.symm
    · simp [statusUpdate, hc, hfailed]
    · right; simp [statusUpdate, hc, hfailed]

/-- Instance of C1 at a callback for `ws_123` with `ResultCode` 1032: the request sent is
the POST of the text with the status "failed". -/
theorem paymentCallback_status_of_resultCode_witness :
    bindCallback (callbackJson "ws_123" "1032") = some ⟨⟨⟨"ws_123", 1032, "", ⟨[]⟩⟩⟩⟩ ∧
    (PaymentCallback sampleEnv netUp (callbackJson "ws_123" "1032")).2 =
      [⟨"POST", "http://orders:8080/orders/ws_123/status",
        [("Content-Type", "application/json")],
        .text "\x7b\"status\": \"failed\"\x7d"⟩] ∧
    ∃ req : HttpRequest,
      (PaymentCallback sampleEnv netUp (callbackJson "ws_123" "1032")).2 = [req] ∧
      req.method = "POST" ∧
      req.url = sampleEnv "ORDERS_SERVICE_URL" ++ "/orders/" ++ "ws_123" ++ "/status" ∧
      (req.body = .text "\x7b\"status\": \"paid\"\x7d" ↔ (1032 : Int) = 0) ∧
      (req.body = .text "\x7b\"status\": \"failed\"\x7d" ↔ (1032 : Int) ≠ 0) ∧
      (req.body = .text "\x7b\"status\": \"paid\"\x7d" ∨
        req.body = .text "\x7b\"status\": \"failed\"\x7d") :=
  ⟨rfl, rfl, paymentCallback_status_of_resultCode sampleEnv netUp
    (callbackJson "ws_123" "1032") ⟨⟨⟨"ws_123", 1032, "", ⟨[]⟩⟩⟩⟩ rfl⟩

/-- C5: `PaymentCallback` responds 400 if and only if the request body cannot be parsed into
the callback envelope, and 200 for every body that can, whatever the `ResultCode` and
whatever the network answers to the status update. -/
theorem paymentCallback_400_iff_unparseable (env : Env) (net : Transport)
    (body : Option Json) :
    ((PaymentCallback env net body).1.status = 400 ↔ parsesAsCallback body = false) ∧
    (parsesAsCallback body = true → (PaymentCallback env net body).1.status = 200) := by
  have hb := bindCallback_isSome body
  cases h : bindCallback body with
  | none =>
    rw [h] at hb
    simp [paymentCallback_unbound env net body h, ← hb]
  | some callback =>
    rw [h] at hb
    simp [paymentCallback_bound env net body callback h, ← hb]

/-- Instances of C5: no JSON value, an array, a `ResultCode` with a fraction and a metadata
value out of the range of `float64` are answered 400; the empty object and a callback with
`ResultCode` 1 are answered 200, also when the status update fails. -/
theorem paymentCallback_400_iff_unparseable_witness :
    (PaymentCallback sampleEnv netUp none).1.status = 400 ∧
    (PaymentCallback sampleEnv netUp (some (.arr []))).1.status = 400 ∧
    (PaymentCallback sampleEnv netUp (callbackJson "ws_123" "1.5")).1.status = 400 ∧
    (PaymentCallback sampleEnv netUp metadataOutOfRange).1.status = 400 ∧
    (PaymentCallback sampleEnv netDown (some (.obj []))).1.status = 200 ∧
    (PaymentCallback sampleEnv netDown (callbackJson "ws_123" "1")).1.status = 200 :=
  ⟨(paymentCallback_400_iff_unparseable sampleEnv netUp none).1.mpr (by decide),
    (paymentCallback_400_iff_unparseable sampleEnv netUp (some (.arr []))).1.mpr (by decide),
    (paymentCallback_400_iff_unparseable sampleEnv netUp
      (callbackJson "ws_123" "1.5")).1.mpr (by decide),
    (paymentCallback_400_iff_unparseable sampleEnv netUp metadataOutOfRange).1.mpr
      (by decide!),
    (paymentCallback_400_iff_unparseable sampleEnv netDown (some (.obj []))).2 (by decide),
    (paymentCallback_400_iff_unparseable sampleEnv netDown
      (callbackJson "ws_123" "1")).2 (by decide)⟩

/-- C6, the code at the body that is the empty JSON object: it binds to the zero envelope, the response is 200
and the status "paid" is sent for the empty identifier. -/
theorem paymentCallback_empty_object (env : Env) (net : Transport) :
    bindCallback (some (.obj [])) = some Callback.zero ∧
    PaymentCallback env net (some (.obj [])) =
      (⟨200, jsonMsg "message" "Callback processed"⟩, [statusUpdate env "" "paid"]) ∧
    (statusUpdate sampleEnv "" "paid").url = "http://orders:8080/orders//status" ∧
    statusPayload "paid" = "\x7b\"status\": \"paid\"\x7d" :=
  ⟨rfl, paymentCallback_bound env net _ Callback.zero rfl, by decide, by decide⟩

/-- The calls of a sequence of deliveries: one status update for each body that binds, with
the status its own `ResultCode` gives, and none for the others. -/
theorem deliverAll_eq (env : Env) (inputs : List (Transport × Option Json)) :
    deliverAll env inputs =
      inputs.filterMap (fun inp => (bindCallback inp.2).map (fun callback =>
        statusUpdate env callback.Body.StkCallback.CheckoutRequestID
          (if callback.Body.StkCallback.ResultCode = 0 then "paid" else "failed"))) := by
  induction inputs with
  | nil => rfl
  | cons inp rest ih =>
    have hstep : deliverAll env (inp :: rest) =
        (PaymentCallback env inp.1 inp.2).2 ++ deliverAll env rest := by
      simp [deliverAll]
    rw [hstep, ih]
    cases h : bindCallback inp.2 with
    | none => simp [paymentCallback_unbound env inp.1 inp.2 h, List.filterMap_cons, h]
    | some callback =>
      simp [paymentCallback_bound env inp.1 inp.2 callback h, List.filterMap_cons, h]

/-- C3, counterexample: two deliveries of one parseable payload send two status updates. -/
theorem replay_twice_sends_two :
    bindCallback (callbackJson "ws_123" "0") ≠ none ∧
    (deliverAll sampleEnv
      [(netUp, callbackJson "ws_123" "0"), (netUp, callbackJson "ws_123" "0")]).length = 2 ∧
    (deliverAll sampleEnv
      [(netUp, callbackJson "ws_123" "0"), (netUp, callbackJson "ws_123" "0")]).length ≠ 1 := by
  refine ⟨?_, ?_, ?_⟩
  · intro h; cases h
  · rfl
  · decide

/-- C3 as amended: a parseable payload delivered `n` times (whatever the network answers to
each delivery) causes `n` status updates, all of them the same request, and each delivery
responds 200. -/
theorem replay_sends_one_per_delivery (env : Env) (body : Option Json) (callback : Callback)
    (nets : List Transport) (h : bindCallback body = some callback) :
    deliverAll env (nets.map (fun net => (net, body))) =
      List.replicate nets.length
        (statusUpdate env callback.Body.StkCallback.CheckoutRequestID
          (if callback.Body.StkCallback.ResultCode = 0 then "paid" else "failed")) ∧
    (deliverAll env (nets.map (fun net => (net, body)))).length = nets.length ∧
    ∀ net ∈ nets, (PaymentCallback env net body).1.status = 200 := by
  have hcalls : deliverAll env (nets.map (fun net => (net, body))) =
      List.replicate nets.length
        (statusUpdate env callback.Body.StkCallback.CheckoutRequestID
          (if callback.Body.StkCallback.ResultCode = 0 then "paid" else "failed")) := by
    rw [deliverAll_eq]
    induction nets with
    | nil => rfl
    | cons net rest ih => simp [List.filterMap_cons, h, List.replicate_succ] at ih ⊢; exact ih
  refine ⟨hcalls, ?_, ?_⟩
  · rw [hcalls, List.length_replicate]
  · intro net _
    rw [paymentCallback_bound env net body callback h]

/-- Instance of the amended C3 at three deliveries of a callback for `ws_123`. -/
theorem replay_sends_one_per_delivery_witness :
    bindCallback (callbackJson "ws_123" "0") = some ⟨⟨⟨"ws_123", 0, "", ⟨[]⟩⟩⟩⟩ ∧
    (deliverAll sampleEnv
      ([netUp, netDown, netUp].map (fun net => (net, callbackJson "ws_123" "0")))).length = 3 :=
  ⟨rfl, (replay_sends_one_per_delivery sampleEnv (callbackJson "ws_123" "0")
    ⟨⟨⟨"ws_123", 0, "", ⟨[]⟩⟩⟩⟩ [netUp, netDown, netUp] rfl).2.1⟩

/-- C7, counterexample: for one correlation id, a callback with `ResultCode` 0 followed by
one with `ResultCode` 1 sends to the same URL first the body with the status "paid", then
the body with the status "failed". -/
theorem paid_then_failed_propagated :
    deliverAll sampleEnv [(netUp, callbackJson "ws_123" "0"), (netUp, callbackJson "ws_123" "1")] =
      [⟨"POST", "http://orders:8080/orders/ws_123/status",
          [("Content-Type", "application/json")], .text "\x7b\"status\": \"paid\"\x7d"⟩,
        ⟨"POST", "http://orders:8080/orders/ws_123/status",
          [("Content-Type", "application/json")], .text "\x7b\"status\": \"failed\"\x7d"⟩] :=
  rfl

/-- C7 as amended: in every sequence of callbacks, each parseable callback sends one request
whose body carries the status its own `ResultCode` gives ("paid" for 0, "failed" otherwise),
whatever was sent before it, and the body of every request sent carries "paid" or "failed",
never a non-terminal status. -/
theorem callbacks_propagate_own_status (env : Env) (inputs : List (Transport × Option Json)) :
    deliverAll env inputs =
      inputs.filterMap (fun inp => (bindCallback inp.2).map (fun callback =>
        (⟨"POST",
          env "ORDERS_SERVICE_URL" ++ "/orders/" ++
            callback.Body.StkCallback.CheckoutRequestID ++ "/status",
          [("Content-Type", "application/json")],
          .text (if callback.Body.StkCallback.ResultCode = 0
            then "\x7b\"status\": \"paid\"\x7d" else "\x7b\"status\": \"failed\"\x7d")⟩ :
          HttpRequest))) ∧
    ∀ req ∈ deliverAll env inputs, req.method = "POST" ∧
      (req.body = .text "\x7b\"status\": \"paid\"\x7d" ∨
        req.body = .text "\x7b\"status\": \"failed\"\x7d") := by
  have hpaid : statusPayload "paid" = "\x7b\"status\": \"paid\"\x7d" := by decide
  have hfailed : statusPayload "failed" = "\x7b\"status\": \"failed\"\x7d" := by decide
  have hreq : ∀ callback : Callback,
      statusUpdate env callback.Body.StkCallback.CheckoutRequestID
          (if callback.Body.StkCallback.ResultCode = 0 then "paid" else "failed") =
        (⟨"POST",
          env "ORDERS_SERVICE_URL" ++ "/orders/" ++
            callback.Body.StkCallback.CheckoutRequestID ++ "/status",
          [("Content-Type", "application/json")],
          .text (if callback.Body.StkCallback.ResultCode = 0
            then "\x7b\"status\": \"paid\"\x7d" else "\x7b\"status\": \"failed\"\x7d")⟩ :
          HttpRequest) := by
    intro callback
    by_cases hc : callback.Body.StkCallback.ResultCode = 0
    · simp [statusUpdate, hc, hpaid]
    · simp [statusUpdate, hc, hfailed]
  have hall : deliverAll env inputs =
      inputs.filterMap (fun inp => (bindCallback inp.2).map (fun callback =>
        (⟨"POST",
          env "ORDERS_SERVICE_URL" ++ "/orders/" ++
            callback.Body.StkCallback.CheckoutRequestID ++ "/status",
          [("Content-Type", "application/json")],
          .text (if callback.Body.StkCallback.ResultCode = 0
            then "\x7b\"status\": \"paid\"\x7d" else "\x7b\"status\": \"failed\"\x7d")⟩ :
          HttpRequest))) := by
    rw [deliverAll_eq]
    simp only [hreq]
  refine ⟨hall, ?_⟩
  intro req hreq2
  rw [hall, List.mem_filterMap] at hreq2
  obtain ⟨inp, _, hinp⟩ := hreq2
  cases h : bindCallback inp.2 with
  | none => simp [h] at hinp
  | some callback =>
    simp only [h, Option.map_some', Option.some.injEq] at hinp
    rw [← hinp]
    refine ⟨rfl, ?_⟩
    by_cases hc : callback.Body.StkCallback.ResultCode = 0
    · left; simp [hc]
    · right; simp [hc]

/-- Every call `PaymentCallback` makes has the method POST. -/
theorem paymentCallback_calls_post (env : Env) (net : Transport) (body : Option Json) :
    ∀ req ∈ (PaymentCallback env net body).2, req.method = "POST" := by
  intro req hreq
  cases h : bindCallback body with
  | none => simp [paymentCallback_unbound env net body h] at hreq
  | some callback =>
    simp [paymentCallback_bound env net body callback h] at hreq
    rw [hreq]; rfl

/-- No path routes a POST request to `UpdateOrderStatus`. -/
theorem route_post_ne_updateOrderStatus (path id : String) :
    route "POST" path ≠ some (.UpdateOrderStatus id) := by
  unfold route
  split <;> simp_all

/-- C4: for every parseable callback, whatever identifier it carries (one no initiation has
returned, such as `ws_999`, or the decimal id of an order, such as `42`), `PaymentCallback`
responds 200, and each call it makes is a POST, which under no path is routed to
`UpdateOrderStatus`: the order service applies no status update. -/
theorem callback_reaches_no_status_update (env : Env) (net : Transport) (body : Option Json)
    (callback : Callback) (h : bindCallback body = some callback) :
    (PaymentCallback env net body).1.status = 200 ∧
    ∀ req ∈ (PaymentCallback env net body).2, req.method = "POST" ∧
      ∀ path id : String, route req.method path ≠ some (.UpdateOrderStatus id) := by
  refine ⟨by rw [paymentCallback_bound env net body callback h], ?_⟩
  intro req hreq
  have hm := paymentCallback_calls_post env net body req hreq
  refine ⟨hm, ?_⟩
  intro path id
  rw [hm]
  exact route_post_ne_updateOrderStatus path id

/-- Instances of C4 at callbacks for `ws_999` and for `42`; the path of the latter has no
route for POST. -/
theorem callback_reaches_no_status_update_witness :
    (bindCallback (callbackJson "42" "0") = some ⟨⟨⟨"42", 0, "", ⟨[]⟩⟩⟩⟩ ∧
      (PaymentCallback sampleEnv netUp (callbackJson "42" "0")).1.status = 200 ∧
      ∀ req ∈ (PaymentCallback sampleEnv netUp (callbackJson "42" "0")).2,
        req.method = "POST" ∧
        ∀ path id : String, route req.method path ≠ some (.UpdateOrderStatus id)) ∧
    (PaymentCallback sampleEnv netUp (callbackJson "ws_999" "0")).1.status = 200 ∧
    route "POST" "/orders/42/status" = none :=
  ⟨⟨rfl, callback_reaches_no_status_update sampleEnv netUp (callbackJson "42" "0")
      ⟨⟨⟨"42", 0, "", ⟨[]⟩⟩⟩⟩ rfl⟩,
    (callback_reaches_no_status_update sampleEnv netUp (callbackJson "ws_999" "0")
      ⟨⟨⟨"ws_999", 0, "", ⟨[]⟩⟩⟩⟩ rfl).1,
    by decide⟩

/-- C2, the code at the scenario of the claim: the initiation for order 42 returns `ws_123`;
the callback for `ws_123` with `ResultCode` 0 then posts to `/orders/ws_123/status`, not to
`/orders/42/status`; and `UpdateOrderStatus` given the path parameter `ws_123` leaves order
42 in status `pending`. -/
theorem callback_keyed_by_gateway_reference :
    (ProcessPayment sampleEnv netGateway sampleTime
      (paymentJson "42" "100" "254700000000")).1 =
        ⟨200, .obj [("checkout_request_id", .str "ws_123"),
          ("message", .str "Payment initiated")]⟩ ∧
    (PaymentCallback sampleEnv netUp (callbackJson "ws_123" "0")).2 =
      [statusUpdate sampleEnv "ws_123" "paid"] ∧
    (statusUpdate sampleEnv "ws_123" "paid").url = "http://orders:8080/orders/ws_123/status" ∧
    (statusUpdate sampleEnv "ws_123" "paid").url ≠ "http://orders:8080/orders/42/status" ∧
    ((OrderHandler.UpdateOrderStatus sampleDB "ws_123"
      (some (.obj [("status", .str "paid")]))).2.orders.map (fun o => (o.ID, o.Status))) =
        [(42, "pending")] := by
  refine ⟨rfl, rfl, by decide, by decide, by decide⟩

/-- The calls of `getMpesaToken`: one credential exchange, whatever the network answers. -/
theorem getMpesaToken_calls (env : Env) (net : Transport) :
    (getMpesaToken env net).2 = [tokenRequest env] := by
  unfold getMpesaToken
  cases h : net (tokenRequest env) <;> simp only [h]

/-- The calls of `ProcessPayment` for a request that binds: the credential exchange, then at
most the initiation. -/
theorem processPayment_calls (env : Env) (net : Transport) (now : Time) (body : Option Json)
    (r : PaymentRequest) (h : bindPaymentRequest body = some r) :
    (ProcessPayment env net now body).2 = [tokenRequest env] ∨
    ∃ token, (ProcessPayment env net now body).2 =
      [tokenRequest env, stkPushRequest env now.Format token r] := by
  unfold ProcessPayment getMpesaToken
  rw [h]
  cases hnet : net (tokenRequest env) with
  | none => left; simp only [hnet]
  | some resp =>
    right
    refine ⟨decodeAccessToken resp.body, ?_⟩
    simp only [hnet]
    cases hnet2 : net (stkPushRequest env now.Format (decodeAccessToken resp.body) r) with
    | none => rfl
    | some resp2 =>
      simp only
      split <;> rfl

/-- The number of credential exchanges among the calls of `ProcessPayment` for a request
that binds is one. -/
theorem processPayment_exchanges (env : Env) (net : Transport) (now : Time)
    (body : Option Json) (r : PaymentRequest) (h : bindPaymentRequest body = some r) :
    (ProcessPayment env net now body).2.countP isCredentialExchange = 1 := by
  have hs : ∀ token, isCredentialExchange (stkPushRequest env now.Format token r) = false := by
    intro token; rfl
  have ht : isCredentialExchange (tokenRequest env) = true := rfl
  rcases processPayment_calls env net now body r h with hc | ⟨token, hc⟩
  · rw [hc]; simp [List.countP_cons, ht]
  · rw [hc]; simp [List.countP_cons, ht, hs]

/-- C8, counterexample: two successive `ProcessPayment` calls, the first of which obtained a
token, make two credential exchanges. -/
theorem two_payments_two_exchanges :
    (getMpesaToken sampleEnv netGateway).1 = .ok "tok" ∧
    ((ProcessPayment sampleEnv netGateway sampleTime
        (paymentJson "42" "100" "254700000000")).2 ++
      (ProcessPayment sampleEnv netGateway sampleTime
        (paymentJson "43" "250" "254700000001")).2).countP isCredentialExchange = 2 := by
  refine ⟨rfl, ?_⟩
  rw [List.countP_append,
    processPayment_exchanges sampleEnv netGateway sampleTime
      (paymentJson "42" "100" "254700000000") ⟨42, "100", "254700000000"⟩ rfl,
    processPayment_exchanges sampleEnv netGateway sampleTime
      (paymentJson "43" "250" "254700000001") ⟨43, "250", "254700000001"⟩ rfl]

/-- C8 as amended: every token fetch makes one credential exchange and returns the token of
the response to it, so that two `ProcessPayment` calls with requests that bind make exactly
two credential exchanges. -/
theorem every_fetch_exchanges_credentials (env : Env) (net1 net2 : Transport)
    (now1 now2 : Time) (body1 body2 : Option Json) (r1 r2 : PaymentRequest)
    (h1 : bindPaymentRequest body1 = some r1) (h2 : bindPaymentRequest body2 = some r2) :
    (getMpesaToken env net1).2 = [tokenRequest env] ∧
    (∀ resp, net1 (tokenRequest env) = some resp →
      (getMpesaToken env net1).1 = .ok (decodeAccessToken resp.body)) ∧
    ((ProcessPayment env net1 now1 body1).2 ++
      (ProcessPayment env net2 now2 body2).2).countP isCredentialExchange = 2 := by
  refine ⟨getMpesaToken_calls env net1, ?_, ?_⟩
  · intro resp hresp
    unfold getMpesaToken
    simp only [hresp]
  · rw [List.countP_append, processPayment_exchanges env net1 now1 body1 r1 h1,
      processPayment_exchanges env net2 now2 body2 r2 h2]

/-- Instance of the amended C8 at two payments on the sample gateway. -/
theorem every_fetch_exchanges_credentials_witness :
    bindPaymentRequest (paymentJson "42" "100" "254700000000") =
      some ⟨42, "100", "254700000000"⟩ ∧
    bindPaymentRequest (paymentJson "43" "250" "254700000001") =
      some ⟨43, "250", "254700000001"⟩ ∧
    ((ProcessPayment sampleEnv netGateway sampleTime
        (paymentJson "42" "100" "254700000000")).2 ++
      (ProcessPayment sampleEnv netGateway sampleTime
        (paymentJson "43" "250" "254700000001")).2).countP isCredentialExchange = 2 :=
  ⟨rfl, rfl, (every_fetch_exchanges_credentials sampleEnv netGateway netGateway sampleTime
    sampleTime (paymentJson "42" "100" "254700000000") (paymentJson "43" "250" "254700000001")
    ⟨42, "100", "254700000000"⟩ ⟨43, "250", "254700000001"⟩ rfl rfl).2.2⟩

/-- C9, the code at a credential exchange answered with status 401 and no `access_token`:
`getMpesaToken` returns the empty token and no error, and `ProcessPayment` sends the
initiation with the header `Bearer ` and does not respond 500. -/
theorem rejected_credentials_not_an_error :
    getMpesaToken sampleEnv netUnauthorized = (.ok "", [tokenRequest sampleEnv]) ∧
    (ProcessPayment sampleEnv netUnauthorized sampleTime
      (paymentJson "42" "100" "254700000000")).2 =
        [tokenRequest sampleEnv,
          stkPushRequest sampleEnv "20240102030405" "" ⟨42, "100", "254700000000"⟩] ∧
    (stkPushRequest sampleEnv "20240102030405" "" ⟨42, "100", "254700000000"⟩).headers =
      [("Content-Type", "application/json"), ("Authorization", "Bearer ")] ∧
    (ProcessPayment sampleEnv netUnauthorized sampleTime
      (paymentJson "42" "100" "254700000000")).1.status = 400 := by
  refine ⟨rfl, rfl, by decide, by decide⟩

/-- C10, counterexample: a request whose amount is `abc` (not numeric) or `-5` (not positive)
is not answered with 400, and both outbound calls are made. -/
theorem non_numeric_amount_accepted :
    (ProcessPayment sampleEnv netGateway sampleTime
      (paymentJson "42" "abc" "254700000000")).1.status = 200 ∧
    ((ProcessPayment sampleEnv netGateway sampleTime
      (paymentJson "42" "abc" "254700000000")).2.map (fun req => req.method)) =
        ["GET", "POST"] ∧
    (ProcessPayment sampleEnv netGateway sampleTime
      (paymentJson "42" "-5" "254700000000")).1.status = 200 ∧
    ((ProcessPayment sampleEnv netGateway sampleTime
      (paymentJson "42" "-5" "254700000000")).2.map (fun req => req.method)) =
        ["GET", "POST"] := by
  refine ⟨by decide, by decide, by decide, by decide⟩

/-- C10 as amended: when the amount or the phone of the decoded request is empty,
`ProcessPayment` responds 400 and makes no outbound call. -/
theorem empty_amount_or_phone_rejected (env : Env) (net : Transport) (now : Time)
    (j : Json) (r : PaymentRequest) (hdec : decodePaymentRequest ⟨0, "", ""⟩ j = some r)
    (hempty : r.Amount = "" ∨ r.PhoneNumber = "") :
    (ProcessPayment env net now (some j)).1.status = 400 ∧
    (ProcessPayment env net now (some j)).2 = [] := by
  have hval : validatePaymentRequest r = false := by
    unfold validatePaymentRequest
    rcases hempty with h | h <;> simp [h]
  have hbind : bindPaymentRequest (some j) = none := by
    unfold bindPaymentRequest
    simp only [hdec, hval]
    rfl
  unfold ProcessPayment
  rw [hbind]
  exact ⟨rfl, rfl⟩

/-- Instance of the amended C10 at a request with an empty amount. -/
theorem empty_amount_or_phone_rejected_witness :
    decodePaymentRequest ⟨0, "", ""⟩
      (.obj [("order_id", .num "42"), ("amount", .str ""), ("phone", .str "254700000000")]) =
        some ⟨42, "", "254700000000"⟩ ∧
    (ProcessPayment sampleEnv netGateway sampleTime
      (paymentJson "42" "" "254700000000")).1.status = 400 ∧
    (ProcessPayment sampleEnv netGateway sampleTime
      (paymentJson "42" "" "254700000000")).2 = [] :=
  ⟨rfl, empty_amount_or_phone_rejected sampleEnv netGateway sampleTime
    (.obj [("order_id", .num "42"), ("amount", .str ""), ("phone", .str "254700000000")])
    ⟨42, "", "254700000000"⟩ rfl (Or.inl rfl)⟩

/-- Decoding the character of a 6-bit value gives the value back. -/
theorem b64Val_b64Char (n : Nat) (h : n < 64) : b64Val (b64Char n) = some n := by
  revert n
  decide

/-- No character of a 6-bit value is the padding character. -/
theorem b64Char_ne_pad (n : Nat) (h : n < 64) : b64Char n ≠ '=' := by
  revert n
  decide

/-- Decoding the base64 encoding of a list of bytes gives the bytes back. -/
theorem decodeChars_encodeBytes (bs : List Nat) (h : ∀ b ∈ bs, b < 256) :
    decodeChars (encodeBytes bs) = some bs := by
  induction bs using encodeBytes.induct with
  | case1 => rfl
  | case2 a =>
    have ha : a < 256 := h a (by simp)
    have v1 := b64Val_b64Char (a / 4) (by omega)
    have v2 := b64Val_b64Char (a % 4 * 16) (by omega)
    simp only [encodeBytes, decodeChars, v1, v2, if_true, List.isEmpty_nil]
    congr 2
    omega
  | case3 a b =>
    have ha : a < 256 := h a (by simp)
    have hb : b < 256 := h b (by simp)
    have v1 := b64Val_b64Char (a / 4) (by omega)
    have v2 := b64Val_b64Char (a % 4 * 16 + b / 16) (by omega)
    have v3 := b64Val_b64Char (b % 16 * 4) (by omega)
    have p3 := b64Char_ne_pad (b % 16 * 4) (by omega)
    simp only [encodeBytes, decodeChars, v1, v2, v3, p3, if_true, if_false, List.isEmpty_nil]
    have e1 : a / 4 * 4 + (a % 4 * 16 + b / 16) / 16 = a := by omega
    have e2 : (a % 4 * 16 + b / 16) % 16 * 16 + b % 16 * 4 / 4 = b := by omega
    rw [e1, e2]
  | case4 a b c rest ih =>
    have ha : a < 256 := h a (by simp)
    have hb : b < 256 := h b (by simp)
    have hc : c < 256 := h c (by simp)
    have hrest : ∀ x ∈ rest, x < 256 := fun x hx => h x (by simp [hx])
    have v1 := b64Val_b64Char (a / 4) (by omega)
    have v2 := b64Val_b64Char (a % 4 * 16 + b / 16) (by omega)
    have v3 := b64Val_b64Char (b % 16 * 4 + c / 64) (by omega)
    have v4 := b64Val_b64Char (c % 64) (by omega)
    have p4 := b64Char_ne_pad (c % 64) (by omega)
    simp only [encodeBytes, decodeChars, v1, v2, v3, v4, p4, if_false, ih hrest]
    have e1 : a / 4 * 4 + (a % 4 * 16 + b / 16) / 16 = a := by omega
    have e2 : (a % 4 * 16 + b / 16) % 16 * 16 + (b % 16 * 4 + c / 64) / 4 = b := by omega
    have e3 : (b % 16 * 4 + c / 64) % 4 * 64 + c % 64 = c := by omega
    rw [e1, e2, e3]

/-- Every byte of a string is below 256. -/
theorem utf8Bytes_lt (s : String) : ∀ b ∈ utf8Bytes s, b < 256 := by
  intro b hb
  unfold utf8Bytes at hb
  rw [List.mem_map] at hb
  obtain ⟨u, _, rfl⟩ := hb
  exact u.val.isLt

/-- Decoding the base64 encoding of a string gives its bytes back. -/
theorem decodeString_encodeToString (s : String) :
    DecodeString (EncodeToString s) = some (utf8Bytes s) :=
  decodeChars_encodeBytes (utf8Bytes s) (utf8Bytes_lt s)

/-- The bytes of a concatenation are the bytes of its parts. -/
theorem utf8Bytes_append (s t : String) : utf8Bytes (s ++ t) = utf8Bytes s ++ utf8Bytes t := by
  simp [utf8Bytes, String.data_append, List.flatMap_append]

/-- The calls of `ProcessPayment` for a request that binds, when the credential exchange is
answered: the exchange, then the initiation with the token of the answer. -/
theorem processPayment_calls_of_token (env : Env) (net : Transport) (now : Time)
    (body : Option Json) (r : PaymentRequest) (resp : HttpResponse)
    (hbind : bindPaymentRequest body = some r) (htok : net (tokenRequest env) = some resp) :
    (ProcessPayment env net now body).2 =
      [tokenRequest env, stkPushRequest env now.Format (decodeAccessToken resp.body) r] := by
  unfold ProcessPayment getMpesaToken
  rw [hbind]
  simp only [htok]
  cases hnet2 : net (stkPushRequest env now.Format (decodeAccessToken resp.body) r) with
  | none => rfl
  | some resp2 =>
    simp only
    split <;> rfl

/-- C11: when `ProcessPayment` sends the initiation request, its `Password` is the standard
base64 encoding of shortcode ++ passkey ++ timestamp, a function of these three strings
only; decoding it gives back the bytes of the shortcode, of the passkey and of the
timestamp, in this order; the timestamp is the string sent as `Timestamp` and the shortcode
the one sent as `BusinessShortCode`. -/
theorem password_encodes_shortcode_passkey_timestamp (env : Env) (net : Transport)
    (now : Time) (body : Option Json) (r : PaymentRequest) (resp : HttpResponse)
    (hbind : bindPaymentRequest body = some r) (htok : net (tokenRequest env) = some resp) :
    ∃ (req : HttpRequest) (shortcode timestamp password : String),
      (ProcessPayment env net now body).2 = [tokenRequest env, req] ∧
      req.body.member "BusinessShortCode" = some (.str shortcode) ∧
      req.body.member "Timestamp" = some (.str timestamp) ∧
      req.body.member "Password" = some (.str password) ∧
      shortcode = env "MPESA_BUSINESS_SHORTCODE" ∧
      timestamp = now.Format ∧
      password = EncodeToString (shortcode ++ env "MPESA_PASSKEY" ++ timestamp) ∧
      DecodeString password =
        some (utf8Bytes shortcode ++ utf8Bytes (env "MPESA_PASSKEY") ++ utf8Bytes timestamp) := by
  refine ⟨stkPushRequest env now.Format (decodeAccessToken resp.body) r,
    env "MPESA_BUSINESS_SHORTCODE", now.Format,
    EncodeToString (env "MPESA_BUSINESS_SHORTCODE" ++ env "MPESA_PASSKEY" ++ now.Format),
    processPayment_calls_of_token env net now body r resp hbind htok, rfl, rfl, rfl, rfl, rfl,
    rfl, ?_⟩
  rw [decodeString_encodeToString, utf8Bytes_append, utf8Bytes_append]

/-- Instance of C11 at a payment for order 42 on the sample gateway. -/
theorem password_encodes_shortcode_passkey_timestamp_witness :
    bindPaymentRequest (paymentJson "42" "100" "254700000000") =
      some ⟨42, "100", "254700000000"⟩ ∧
    netGateway (tokenRequest sampleEnv) =
      some ⟨200, some (.obj [("access_token", .str "tok")])⟩ ∧
    EncodeToString ("174379" ++ "passkey" ++ "20240102030405") =
      "MTc0Mzc5cGFzc2tleTIwMjQwMTAyMDMwNDA1" ∧
    ∃ (req : HttpRequest) (shortcode timestamp password : String),
      (ProcessPayment sampleEnv netGateway sampleTime
        (paymentJson "42" "100" "254700000000")).2 = [tokenRequest sampleEnv, req] ∧
      req.body.member "BusinessShortCode" = some (.str shortcode) ∧
      req.body.member "Timestamp" = some (.str timestamp) ∧
      req.body.member "Password" = some (.str password) ∧
      shortcode = sampleEnv "MPESA_BUSINESS_SHORTCODE" ∧
      timestamp = sampleTime.Format ∧
      password = EncodeToString (shortcode ++ sampleEnv "MPESA_PASSKEY" ++ timestamp) ∧
      DecodeString password =
        some (utf8Bytes shortcode ++ utf8Bytes (sampleEnv "MPESA_PASSKEY") ++
          utf8Bytes timestamp) :=
  ⟨rfl, rfl, by decide,
    password_encodes_shortcode_passkey_timestamp sampleEnv netGateway sampleTime
      (paymentJson "42" "100" "254700000000") ⟨42, "100", "254700000000"⟩
      ⟨200, some (.obj [("access_token", .str "tok")])⟩ rfl rfl⟩

/-- `ProcessPayment` on a request that does not bind. -/
theorem processPayment_unbound (env : Env) (net : Transport) (now : Time) (body : Option Json)
    (hbind : bindPaymentRequest body = none) :
    ProcessPayment env net now body =
      (⟨400, jsonMsg "error" "Invalid request format"⟩, []) := by
  unfold ProcessPayment
  rw [hbind]

/-- `ProcessPayment` when the credential exchange fails in transport. -/
theorem processPayment_token_failed (env : Env) (net : Transport) (now : Time)
    (body : Option Json) (r : PaymentRequest)
    (hbind : bindPaymentRequest body = some r) (htok : net (tokenRequest env) = none) :
    ProcessPayment env net now body =
      (⟨500, jsonMsg "error" "Payment initialization failed"⟩, [tokenRequest env]) := by
  unfold ProcessPayment getMpesaToken
  rw [hbind]
  simp only [htok]

/-- `ProcessPayment` when the initiation fails in transport. -/
theorem processPayment_push_failed (env : Env) (net : Transport) (now : Time)
    (body : Option Json) (r : PaymentRequest) (resp : HttpResponse)
    (hbind : bindPaymentRequest body = some r) (htok : net (tokenRequest env) = some resp)
    (hpush : net (stkPushRequest env now.Format (decodeAccessToken resp.body) r) = none) :
    (ProcessPayment env net now body).1 =
      ⟨500, jsonMsg "error" "Payment processing failed"⟩ := by
  unfold ProcessPayment getMpesaToken
  rw [hbind]
  simp only [htok, hpush]

/-- `ProcessPayment` when the gateway answers the initiation. -/
theorem processPayment_push_answered (env : Env) (net : Transport) (now : Time)
    (body : Option Json) (r : PaymentRequest) (resp resp2 : HttpResponse)
    (hbind : bindPaymentRequest body = some r) (htok : net (tokenRequest env) = some resp)
    (hpush : net (stkPushRequest env now.Format (decodeAccessToken resp.body) r) = some resp2) :
    (ProcessPayment env net now body).1 =
      if resp2.statusCode = 200 then
        ⟨200, .obj [("checkout_request_id", mapIndex resp2.body "CheckoutRequestID"),
          ("message", .str "Payment initiated")]⟩
      else
        ⟨400, .obj [("detail", decodeResult resp2.body), ("error", .str "Payment failed")]⟩ := by
  unfold ProcessPayment getMpesaToken
  rw [hbind]
  simp only [htok, hpush]
  by_cases h : resp2.statusCode = 200 <;> simp [h]

/-- A key just stored in a Go map is found with the value stored. -/
theorem mapLookup_mapInsert_same (m : List (String × Json)) (key : String) (v : Json) :
    mapLookup (mapInsert m key v) key = some v := by
  induction m with
  | nil => simp [mapInsert, mapLookup]
  | cons kw rest ih =>
    obtain ⟨k, w⟩ := kw
    unfold mapInsert
    by_cases h1 : key = k
    · subst h1
      simp [mapLookup]
    · simp only [h1, if_false]
      by_cases h2 : key < k
      · simp [h2, mapLookup]
      · have hk : (k == key) = false := by
          simp only [beq_eq_false_iff_ne, ne_eq]
          exact fun h => h1 h.symm
        simp only [h2, if_false]
        simp only [mapLookup, List.find?_cons, hk] at ih ⊢
        exact ih

/-- Storing a value under one key leaves the value under any other key as it was. -/
theorem mapLookup_mapInsert_other (m : List (String × Json)) (key other : String) (v : Json)
    (hne : other ≠ key) : mapLookup (mapInsert m key v) other = mapLookup m other := by
  have hkey : (key == other) = false := by
    simp only [beq_eq_false_iff_ne, ne_eq]
    exact fun h => hne h.symm
  induction m with
  | nil => simp [mapInsert, mapLookup, hkey]
  | cons kw rest ih =>
    obtain ⟨k, w⟩ := kw
    unfold mapInsert
    by_cases h1 : key = k
    · subst h1
      simp [mapLookup, List.find?_cons, hkey]
    · simp only [h1, if_false]
      by_cases h2 : key < k
      · simp [h2, mapLookup, List.find?_cons, hkey]
      · simp only [h2, if_false]
        simp only [mapLookup, List.find?_cons] at ih ⊢
        cases hk : (k == other) with
        | true => rfl
        | false => exact ih

/-- Members with other keys leave the value the map holds under a key as it was. -/
theorem mapLookup_interfaceMap_absent (l : List (String × Json)) (key : String)
    (h : ∀ kv ∈ l, kv.1 ≠ key) (acc : List (String × Json)) :
    mapLookup (interfaceMap l acc) key = mapLookup acc key := by
  induction l generalizing acc with
  | nil => simp [interfaceMap]
  | cons kv rest ih =>
    obtain ⟨k, j⟩ := kv
    have hk : key ≠ k := fun e => h (k, j) (by simp) e.symm
    have hrest : ∀ kv ∈ rest, kv.1 ≠ key := fun kv hkv => h kv (by simp [hkv])
    simp only [interfaceMap]
    rw [ih hrest, mapLookup_mapInsert_other _ _ _ _ hk]

/-- Storing the members of a concatenation stores those of the first list, then those of
the second. -/
theorem interfaceMap_append (l1 l2 acc : List (String × Json)) :
    interfaceMap (l1 ++ l2) acc = interfaceMap l2 (interfaceMap l1 acc) := by
  induction l1 generalizing acc with
  | nil => simp [interfaceMap]
  | cons kv rest ih =>
    obtain ⟨k, j⟩ := kv
    simp only [List.cons_append, interfaceMap]
    exact ih _

/-- The index expression on an object without the key gives `null`. -/
theorem mapIndex_absent (kvs : List (String × Json)) (key : String)
    (h : ∀ kv ∈ kvs, kv.1 ≠ key) : mapIndex (some (.obj kvs)) key = .null := by
  simp only [mapIndex, mapLookup_interfaceMap_absent kvs key h []]
  rfl

/-- The index expression on an object gives the value of the last member with the key, as
it is stored in an `interface{}`. -/
theorem mapIndex_last (pre post : List (String × Json)) (key : String) (v : Json)
    (h : ∀ kv ∈ post, kv.1 ≠ key) :
    mapIndex (some (.obj (pre ++ (key, v) :: post))) key = interfaceValue v := by
  have hfind : mapLookup (interfaceMap (pre ++ (key, v) :: post) []) key =
      some (interfaceValue v) := by
    rw [interfaceMap_append]
    simp only [interfaceMap]
    rw [mapLookup_interfaceMap_absent post key h, mapLookup_mapInsert_same]
  simp only [mapIndex, hfind]

/-- C12, counterexample: the gateway answers the initiation with status 200 and a body
without `CheckoutRequestID`; `ProcessPayment` responds 200 with `checkout_request_id` null. -/
theorem gateway_ok_without_reference :
    (ProcessPayment sampleEnv netNoReference sampleTime
      (paymentJson "42" "100" "254700000000")).1 =
        ⟨200, .obj [("checkout_request_id", .null), ("message", .str "Payment initiated")]⟩ :=
  rfl

/-- C12 as amended: `ProcessPayment` responds 200 only when the request binds and the gateway
answers the initiation with status 200, and it does so when moreover the token fetch
succeeded (the credential exchange is answered with status 200 and an `access_token`). A
transport failure of the credential exchange or, after a token fetch that succeeded, of the
initiation gives 500; after a token fetch that succeeded any other status of the gateway
gives 400 whose `detail` is the body of the gateway decoded into a Go map and marshalled
again, `null` when that body is not an object. In the 200 response `checkout_request_id` is
what that map holds under `CheckoutRequestID`: the string the gateway returned, when it
returned one, and `null` when the body is not an object or has no such member. -/
theorem processPayment_status_and_reference (env : Env) (net : Transport) (now : Time)
    (body : Option Json) :
    ((ProcessPayment env net now body).1.status = 200 →
      ∃ r token resp2, bindPaymentRequest body = some r ∧
        net (stkPushRequest env now.Format token r) = some resp2 ∧
        resp2.statusCode = 200) ∧
    (∀ r, bindPaymentRequest body = some r → net (tokenRequest env) = none →
      (ProcessPayment env net now body).1.status = 500) ∧
    (∀ r resp, bindPaymentRequest body = some r → net (tokenRequest env) = some resp →
      resp.statusCode = 200 → decodeAccessToken resp.body ≠ "" →
      (net (stkPushRequest env now.Format (decodeAccessToken resp.body) r) = none →
        (ProcessPayment env net now body).1.status = 500) ∧
      (∀ resp2,
        net (stkPushRequest env now.Format (decodeAccessToken resp.body) r) = some resp2 →
        (resp2.statusCode ≠ 200 →
          (ProcessPayment env net now body).1 =
            ⟨400, .obj [("detail", decodeResult resp2.body),
              ("error", .str "Payment failed")]⟩ ∧
          ((∀ kvs, resp2.body ≠ some (.obj kvs)) → decodeResult resp2.body = .null) ∧
          (∀ kvs, resp2.body = some (.obj kvs) →
            decodeResult resp2.body = .obj (interfaceMap kvs []))) ∧
        (resp2.statusCode = 200 →
          (ProcessPayment env net now body).1.status = 200 ∧
          (∀ pre post s,
            resp2.body = some (.obj (pre ++ ("CheckoutRequestID", .str s) :: post)) →
            (∀ kv ∈ post, kv.1 ≠ "CheckoutRequestID") →
            (ProcessPayment env net now body).1 =
              ⟨200, .obj [("checkout_request_id", .str s),
                ("message", .str "Payment initiated")]⟩) ∧
          (∀ kvs, resp2.body = some (.obj kvs) →
            (∀ kv ∈ kvs, kv.1 ≠ "CheckoutRequestID") →
            (ProcessPayment env net now body).1 =
              ⟨200, .obj [("checkout_request_id", .null),
                ("message", .str "Payment initiated")]⟩) ∧
          ((∀ kvs, resp2.body ≠ some (.obj kvs)) →
            (ProcessPayment env net now body).1 =
              ⟨200, .obj [("checkout_request_id", .null),
                ("message", .str "Payment initiated")]⟩)))) := by
  refine ⟨?_, ?_, ?_⟩
  · intro hst
    cases hbind : bindPaymentRequest body with
    | none => rw [processPayment_unbound env net now body hbind] at hst; cases hst
    | some r =>
      cases htok : net (tokenRequest env) with
      | none =>
        rw [processPayment_token_failed env net now body r hbind htok] at hst; cases hst
      | some resp =>
        cases hpush : net (stkPushRequest env now.Format (decodeAccessToken resp.body) r) with
        | none =>
          rw [processPayment_push_failed env net now body r resp hbind htok hpush] at hst
          cases hst
        | some resp2 =>
          refine ⟨r, decodeAccessToken resp.body, resp2, rfl, hpush, ?_⟩
          rw [processPayment_push_answered env net now body r resp resp2 hbind htok hpush]
            at hst
          by_contra hne
          rw [if_neg hne] at hst
          cases hst
  · intro r hbind htok
    rw [processPayment_token_failed env net now body r hbind htok]
  · intro r resp hbind htok _ _
    refine ⟨?_, ?_⟩
    · intro hpush
      rw [processPayment_push_failed env net now body r resp hbind htok hpush]
    · intro resp2 hpush
      have hans := processPayment_push_answered env net now body r resp resp2 hbind htok hpush
      refine ⟨?_, ?_⟩
      · intro hne
        refine ⟨by rw [hans, if_neg hne], ?_, ?_⟩
        · intro hnot
          cases hb : resp2.body with
          | none => rfl
          | some j =>
            cases j with
            | obj kvs => exact absurd hb (hnot kvs)
            | _ => rfl
        · intro kvs hb
          rw [hb]
          rfl
      · intro hok
        rw [if_pos hok] at hans
        refine ⟨by rw [hans], ?_, ?_, ?_⟩
        · intro pre post s hbody hpost
          rw [hans, hbody, mapIndex_last pre post "CheckoutRequestID" (.str s) hpost]
          simp [interfaceValue]
        · intro kvs hbody hkvs
          rw [hans, hbody, mapIndex_absent kvs "CheckoutRequestID" hkvs]
        · intro hnot
          rw [hans]
          cases hb : resp2.body with
          | none => rfl
          | some j =>
            cases j with
            | obj kvs => exact absurd hb (hnot kvs)
            | _ => rfl

/-- Instances of the amended C12 on the sample gateway, which answers the credential exchange
with status 200 and a token and the initiation with status 200 and the reference `ws_123`:
the response is 200 with that reference. -/
theorem processPayment_status_and_reference_witness :
    netGateway (tokenRequest sampleEnv) =
      some ⟨200, some (.obj [("access_token", .str "tok")])⟩ ∧
    (ProcessPayment sampleEnv netGateway sampleTime
      (paymentJson "42" "100" "254700000000")).1 =
        ⟨200, .obj [("checkout_request_id", .str "ws_123"),
          ("message", .str "Payment initiated")]⟩ :=
  ⟨rfl,
    ((((processPayment_status_and_reference sampleEnv netGateway sampleTime
      (paymentJson "42" "100" "254700000000")).2.2
        ⟨42, "100", "254700000000"⟩ ⟨200, some (.obj [("access_token", .str "tok")])⟩
        rfl rfl rfl (by decide)).2
        ⟨200, some (.obj [("CheckoutRequestID", .str "ws_123")])⟩ rfl).2 rfl).2.1
      [] [] "ws_123" rfl (by simp)⟩

/-- C13: for an order whose `Total` is 0 when the hook runs, `AfterFind` returns no error and
changes only `Total`, which becomes the sum of the prices of the products, added one after
the other in list order starting from 0; with no products it stays 0. -/
theorem afterFind_total_is_sum_of_prices {F : Type} [Add F] [Zero F] (o : Order F)
    (h : o.Total = 0) :
    o.AfterFind.2 = none ∧
    o.AfterFind.1 =
      { o with Total := (o.Products.map (fun p => p.Price)).foldl (fun x y => x + y) 0 } ∧
    o.AfterFind.1.Products = o.Products ∧
    (o.Products = [] → o.AfterFind.1.Total = 0) := by
  have hfold : ∀ (ps : List (Product F)) (t : F),
      ps.foldl (fun total product => total + product.Price) t =
        (ps.map (fun p => p.Price)).foldl (fun x y => x + y) t := by
    intro ps
    induction ps with
    | nil => intro t; rfl
    | cons p rest ih => intro t; simp only [List.foldl_cons, List.map_cons]; exact ih _
  refine ⟨rfl, ?_, rfl, ?_⟩
  · unfold Order.AfterFind
    rw [hfold, h]
  · intro hnil
    unfold Order.AfterFind
    simp only [hnil, List.foldl_nil, h]

/-- Instance of C13 at an order with two products of price 10 and 20. -/
theorem afterFind_total_is_sum_of_prices_witness :
    (Order.AfterFind (⟨1, 7, [⟨1, "Product 1", 10⟩, ⟨2, "Product 2", 20⟩], "pending", 0⟩ :
      Order Nat)).1.Total = 30 ∧
    (Order.AfterFind (⟨1, 7, [⟨1, "Product 1", 10⟩, ⟨2, "Product 2", 20⟩], "pending", 0⟩ :
      Order Nat)).2 = none :=
  ⟨congrArg Order.Total (afterFind_total_is_sum_of_prices
      (⟨1, 7, [⟨1, "Product 1", 10⟩, ⟨2, "Product 2", 20⟩], "pending", 0⟩ : Order Nat) rfl).2.1,
    (afterFind_total_is_sum_of_prices
      (⟨1, 7, [⟨1, "Product 1", 10⟩, ⟨2, "Product 2", 20⟩], "pending", 0⟩ : Order Nat) rfl).1⟩

/-- The rows after `UpdateOrderStatus` on a working database. -/
theorem updateOrderStatus_rows {F : Type} (db : DB F) (id : Nat) (s : String)
    (hup : db.down = false) :
    OrderRepository.UpdateOrderStatus db id s =
      (⟨db.orders.map (fun o => if o.ID = id then { o with Status := s } else o), db.down⟩,
        none) := by
  unfold OrderRepository.UpdateOrderStatus
  simp [hup]

/-- The first row with a given id after the status of the rows with id `id` was set. -/
theorem find_after_update {F : Type} (rows : List (Order F)) (id id1 : Nat) (s : String) :
    (rows.map (fun o => if o.ID = id then { o with Status := s } else o)).find?
        (fun o => o.ID == id1) =
      (rows.find? (fun o => o.ID == id1)).map
        (fun o => if o.ID = id then { o with Status := s } else o) := by
  induction rows with
  | nil => rfl
  | cons o rest ih =>
    have hid : (if o.ID = id then { o with Status := s } else o).ID = o.ID := by
      split <;> rfl
    simp only [List.map_cons, List.find?_cons, hid]
    cases hc : (o.ID == id1) with
    | true => rfl
    | false => exact ih

/-- The rows with another id are the same after the status of the rows with id `id` was
set. -/
theorem filter_after_update {F : Type} (rows : List (Order F)) (id : Nat) (s : String) :
    (rows.map (fun o => if o.ID = id then { o with Status := s } else o)).filter
        (fun o => o.ID != id) =
      rows.filter (fun o => o.ID != id) := by
  induction rows with
  | nil => rfl
  | cons o rest ih =>
    by_cases hid : o.ID = id
    · simp [List.filter_cons, hid, ih]
    · simp [List.filter_cons, hid, ih]

/-- C14: on a working database, `UpdateOrderStatus id s` returns no error whether or not a
row has the id; if a row has it, `GetOrder id` then succeeds and returns the order it
returned before with the status set to `s` (same id, customer and products); `GetOrder` for
any other id and the rows with any other id are unchanged; and if no row has the id, the
database is unchanged and `GetOrder id` still fails. -/
theorem updateOrderStatus_frame {F : Type} [Add F] [Zero F] (db : DB F) (id : Nat)
    (s : String) (hup : db.down = false) :
    (OrderRepository.UpdateOrderStatus db id s).2 = none ∧
    (∀ row ∈ db.orders, row.ID = id →
      ∃ o, OrderRepository.GetOrder db id = .ok o ∧ o.ID = id ∧
        OrderRepository.GetOrder (OrderRepository.UpdateOrderStatus db id s).1 id =
          .ok { o with Status := s }) ∧
    (∀ id1, id1 ≠ id →
      OrderRepository.GetOrder (OrderRepository.UpdateOrderStatus db id s).1 id1 =
        OrderRepository.GetOrder db id1) ∧
    ((OrderRepository.UpdateOrderStatus db id s).1.orders.filter (fun o => o.ID != id) =
      db.orders.filter (fun o => o.ID != id)) ∧
    ((∀ row ∈ db.orders, row.ID ≠ id) →
      (OrderRepository.UpdateOrderStatus db id s).1 = db ∧
      OrderRepository.GetOrder (OrderRepository.UpdateOrderStatus db id s).1 id =
        .error "record not found") := by
  rw [updateOrderStatus_rows db id s hup]
  refine ⟨rfl, ?_, ?_, ?_, ?_⟩
  · intro row hrow hid
    have hsome : ∃ o, db.orders.find? (fun o => o.ID == id) = some o := by
      cases hf : db.orders.find? (fun o => o.ID == id) with
      | some o => exact ⟨o, rfl⟩
      | none =>
        rw [List.find?_eq_none] at hf
        exact absurd (by simpa using hid) (hf row hrow)
    obtain ⟨o, ho⟩ := hsome
    have hoid : o.ID = id := by simpa using List.find?_some ho
    refine ⟨({ o with Total := 0 } : Order F).AfterFind.1, ?_, hoid, ?_⟩
    · simp only [OrderRepository.GetOrder, hup, ho]
      rfl
    · simp only [OrderRepository.GetOrder, hup, find_after_update, ho, Option.map_some',
        hoid]
      rfl
  · intro id1 hne
    simp only [OrderRepository.GetOrder, hup, find_after_update]
    cases hf : db.orders.find? (fun o => o.ID == id1) with
    | none => rfl
    | some o =>
      have hoid : o.ID = id1 := by simpa using List.find?_some hf
      have hne2 : ¬ o.ID = id := by rw [hoid]; exact hne
      simp only [Option.map_some', hne2, if_false]
  · exact filter_after_update db.orders id s
  · intro hnone
    have hmap : db.orders.map (fun o => if o.ID = id then { o with Status := s } else o) =
        db.orders := by
      conv => rhs; rw [← List.map_id db.orders]
      apply List.map_congr_left
      intro o ho
      simp [hnone o ho]
    have hfind : db.orders.find? (fun o => o.ID == id) = none := by
      rw [List.find?_eq_none]
      intro o ho
      simpa using hnone o ho
    refine ⟨?_, ?_⟩
    · show (⟨_, _⟩ : DB F) = db
      rw [hmap]
    · simp only [OrderRepository.GetOrder, hup, hmap, hfind]
      rfl

/-- Instance of C14 at the sample database: the id 42 of its order and the id 999 of no
order. -/
theorem updateOrderStatus_frame_witness :
    sampleDB.down = false ∧
    (OrderRepository.UpdateOrderStatus sampleDB 42 "shipped").2 = none ∧
    ((OrderRepository.UpdateOrderStatus sampleDB 42 "shipped").1.orders.map
      (fun o => (o.ID, o.CustomerID, o.Status))) = [(42, 7, "shipped")] ∧
    (OrderRepository.UpdateOrderStatus sampleDB 999 "shipped").2 = none ∧
    OrderRepository.GetOrder (OrderRepository.UpdateOrderStatus sampleDB 999 "shipped").1 999 =
      .error "record not found" :=
  ⟨rfl, (updateOrderStatus_frame sampleDB 42 "shipped" rfl).1, by decide,
    (updateOrderStatus_frame sampleDB 999 "shipped" rfl).1,
    ((updateOrderStatus_frame sampleDB 999 "shipped" rfl).2.2.2.2 (by decide)).2⟩

/-- C15, the code at a callback for `42` with `ResultCode` 0: the status update is a POST to
`/orders/42/status`, for which the order service has no route; the route of
`UpdateOrderStatus` takes PUT. The body, read as JSON, would bind to the status sent. -/
theorem status_update_has_no_route :
    (PaymentCallback sampleEnv netUp (callbackJson "42" "0")).2 =
      [statusUpdate sampleEnv "42" "paid"] ∧
    (statusUpdate sampleEnv "42" "paid").method = "POST" ∧
    (statusUpdate sampleEnv "42" "paid").url = "http://orders:8080/orders/42/status" ∧
    route "POST" "/orders/42/status" = none ∧
    route "PUT" "/orders/42/status" = some (.UpdateOrderStatus "42") ∧
    statusPayload "paid" = "\x7b\"status\": \"paid\"\x7d" ∧
    (bindStatus (some (.obj [("status", .str "paid")]))).map (fun st => st.Status) =
      some "paid" := by
  refine ⟨rfl, rfl, by decide, by decide, by decide, by decide, by decide⟩

end OrderManagement
